import Mathlib

/-!
# Verification of the cleantest orchestration and injection engine

Shallow embedding of the parts of the `cleantest` repository that the
specification's testable properties talk about:

* the injection protocol (`cleantest/meta/bases/injectable.py`,
  `BaseInjectable._dumps` / `BaseInjectable._loads`; the identical code in
  `cleantest/meta/mixins.py`, class `Injectable`, is what `File`/`Dir`
  actually inherit),
* the hook registry (`cleantest/meta/base_configurer.py`),
* hook dispatch and the LXD archon (`cleantest/lxd/archon.py`),
* the LXD configurer (`cleantest/lxd/config.py`),
* the environment store (`cleantest/env.py`).

Python byte strings are modelled as `List Nat` with every element `< 256`;
ASCII strings that the code treats as character data are also `List Nat`
of character codes.  External collaborators (pickle, SHA-224, the LXD
client, the host file system) are modelled as explicit parameters or
oracles, with exactly the contracts the code relies on.
-/

namespace Cleantest

/-! ## Base64, as implemented by CPython's `binascii` module

`BaseInjectable._dumps` calls `base64.b64encode` and `_loads` calls
`base64.b64decode` (with the default `validate=False`), which delegate to
`binascii.b2a_base64` / `binascii.a2b_base64`.  The decoder below is a
direct translation of the (non-strict) `a2b_base64` loop of CPython's
`Modules/binascii.c`: characters outside the alphabet are skipped, a pad
character after at least two data characters of the current quad ends the
input and discards pending bits, and leftover bits at the end raise
`binascii.Error("Incorrect padding")`. -/

/-- The 64 alphabet characters of standard base64, as ASCII codes. -/
def b64chars : List Nat :=
  (List.range 26).map (· + 65) ++ (List.range 26).map (· + 97) ++
    (List.range 10).map (· + 48) ++ [43, 47]

/-- ASCII code of the base64 digit for a 6-bit value (`table_b2a_base64`). -/
def encChar (v : Nat) : Nat := b64chars.getD v 0

/-- Model of `table_a2b_base64`: map an ASCII code back to its 6-bit value;
`none` for characters outside the alphabet. -/
def tableA2b (c : Nat) : Option Nat := List.indexOf? c b64chars

/-- Model of `base64.b64encode`: encode 3-byte groups into 4 alphabet
characters, padding a trailing 1- or 2-byte group with `=` (ASCII 61). -/
def b64encode : List Nat → List Nat
  | [] => []
  | [a] => [encChar (a / 4), encChar (a % 4 * 16), 61, 61]
  | [a, b] => [encChar (a / 4), encChar (a % 4 * 16 + b / 16), encChar (b % 16 * 4), 61]
  | a :: b :: c :: rest =>
      encChar (a / 4) :: encChar (a % 4 * 16 + b / 16) ::
        encChar (b % 16 * 4 + c / 64) :: encChar (c % 64) :: b64encode rest

/-- Model of `binascii_find_valid(p, n, 1)` of `binascii.c`, applied to the
input after the current pad character: the next character that is `≤ 0x7f`
and valid for base64 (the pad character itself counts as valid because
`table_a2b_base64` maps `=` to `0`). -/
def findValid : List Nat → Option Nat
  | [] => none
  | c :: rest =>
      if c ≤ 127 && (c == 61 || (tableA2b c).isSome) then some c else findValid rest

/-- The main loop of non-strict `binascii.a2b_base64`.  State: `quadPos`
(position in the current 4-character quad), `leftchar` (pending bits, as a
number), `leftbits` (how many bits are pending) and `out` (decoded bytes,
in reverse order). -/
def a2bBase64 : List Nat → Nat → Nat → Nat → List Nat → Except String (List Nat)
  | [], _, _, leftbits, out =>
      if leftbits ≠ 0 then .error "Incorrect padding" else .ok out.reverse
  | c :: rest, quadPos, leftchar, leftbits, out =>
      if c > 127 || c == 13 || c == 10 || c == 32 then
        a2bBase64 rest quadPos leftchar leftbits out
      else if c == 61 then
        -- a pad is ignored unless at least two characters of this quad were
        -- seen (and, at quad position 2, the next valid character is also a
        -- pad); a real pad sequence ends the input, discarding pending bits
        if quadPos < 2 || (quadPos == 2 && !(findValid rest == some 61)) then
          a2bBase64 rest quadPos leftchar leftbits out
        else
          .ok out.reverse
      else
        match tableA2b c with
        | none => a2bBase64 rest quadPos leftchar leftbits out
        | some v =>
            let leftchar' := leftchar * 64 + v
            let leftbits' := leftbits + 6
            if 8 ≤ leftbits' then
              a2bBase64 rest ((quadPos + 1) % 4) (leftchar' % 2 ^ (leftbits' - 8))
                (leftbits' - 8) ((leftchar' / 2 ^ (leftbits' - 8)) % 256 :: out)
            else
              a2bBase64 rest ((quadPos + 1) % 4) leftchar' leftbits' out

/-- Model of `base64.b64decode(data)` with the default `validate=False`. -/
def b64decode (data : List Nat) : Except String (List Nat) :=
  a2bBase64 data 0 0 0 []

/-- Each alphabet character decodes back to its 6-bit value. -/
theorem tableA2b_encChar : ∀ v : Fin 64, tableA2b (encChar v.val) = some v.val := by
  decide

/-- Alphabet characters are plain ASCII and are not skipped or treated as
padding by the decoder. -/
theorem encChar_plain :
    ∀ v : Fin 64,
      (encChar v.val > 127 || encChar v.val == 13 || encChar v.val == 10 ||
          encChar v.val == 32) = false ∧ (encChar v.val == 61) = false := by
  decide

/-- One decoder step on an alphabet character. -/
theorem a2b_step (c : Nat) (rest : List Nat) (quadPos leftchar leftbits : Nat)
    (out : List Nat) (v : Nat)
    (hplain : (c > 127 || c == 13 || c == 10 || c == 32) = false)
    (hpad : (c == 61) = false)
    (htab : tableA2b c = some v) :
    a2bBase64 (c :: rest) quadPos leftchar leftbits out =
      if 8 ≤ leftbits + 6 then
        a2bBase64 rest ((quadPos + 1) % 4) ((leftchar * 64 + v) % 2 ^ (leftbits + 6 - 8))
          (leftbits + 6 - 8) ((leftchar * 64 + v) / 2 ^ (leftbits + 6 - 8) % 256 :: out)
      else a2bBase64 rest ((quadPos + 1) % 4) (leftchar * 64 + v) (leftbits + 6) out := by
  simp only [a2bBase64, hplain, hpad, Bool.false_eq_true, if_false, htab]

/-- A pad character that completes a pad sequence ends the input,
discarding pending bits. -/
theorem a2b_pad_end (rest : List Nat) (quadPos leftchar leftbits : Nat) (out : List Nat)
    (hq : quadPos = 2 ∧ findValid rest = some 61 ∨ quadPos = 3) :
    a2bBase64 (61 :: rest) quadPos leftchar leftbits out = .ok out.reverse := by
  rcases hq with ⟨h2, hf⟩ | h3
  · subst h2
    simp [a2bBase64, hf]
  · subst h3
    simp [a2bBase64]

/-- Auxiliary round-trip lemma for the decoder loop, tracking the output
accumulator. -/
theorem a2bBase64_b64encode (bs : List Nat) (h : ∀ b ∈ bs, b < 256) (out : List Nat) :
    a2bBase64 (b64encode bs) 0 0 0 out = .ok (out.reverse ++ bs) := by
  induction bs using b64encode.induct generalizing out with
  | case1 =>
      simp [b64encode, a2bBase64]
  | case2 a =>
      have ha : a < 256 := h a (by simp)
      have h1 : a / 4 < 64 := by omega
      have h2 : a % 4 * 16 < 64 := by omega
      rw [show b64encode [a] = [encChar (a / 4), encChar (a % 4 * 16), 61, 61] from rfl]
      rw [a2b_step _ _ _ _ _ _ _ (encChar_plain ⟨_, h1⟩).1 (encChar_plain ⟨_, h1⟩).2
        (tableA2b_encChar ⟨_, h1⟩)]
      norm_num
      rw [a2b_step _ _ _ _ _ _ _ (encChar_plain ⟨_, h2⟩).1 (encChar_plain ⟨_, h2⟩).2
        (tableA2b_encChar ⟨_, h2⟩)]
      norm_num
      have e1 : a / 4 * 64 % 16 = 0 := by omega
      have e2 : (a / 4 * 64 + a % 4 * 16) / 16 % 256 = a := by omega
      rw [e1, e2]
      rw [a2b_pad_end _ _ _ _ _ (Or.inl ⟨rfl, by simp [findValid]⟩)]
      simp
  | case3 a b =>
      have ha : a < 256 := h a (by simp)
      have hb : b < 256 := h b (by simp)
      have h1 : a / 4 < 64 := by omega
      have h2 : a % 4 * 16 + b / 16 < 64 := by omega
      have h3 : b % 16 * 4 < 64 := by omega
      rw [show b64encode [a, b] =
        [encChar (a / 4), encChar (a % 4 * 16 + b / 16), encChar (b % 16 * 4), 61] from rfl]
      rw [a2b_step _ _ _ _ _ _ _ (encChar_plain ⟨_, h1⟩).1 (encChar_plain ⟨_, h1⟩).2
        (tableA2b_encChar ⟨_, h1⟩)]
      norm_num
      rw [a2b_step _ _ _ _ _ _ _ (encChar_plain ⟨_, h2⟩).1 (encChar_plain ⟨_, h2⟩).2
        (tableA2b_encChar ⟨_, h2⟩)]
      norm_num
      have e2 : (a / 4 * 64 + (a % 4 * 16 + b / 16)) % 16 = b / 16 := by omega
      have e3 : (a / 4 * 64 + (a % 4 * 16 + b / 16)) / 16 % 256 = a := by omega
      rw [e2, e3]
      rw [a2b_step _ _ _ _ _ _ _ (encChar_plain ⟨_, h3⟩).1 (encChar_plain ⟨_, h3⟩).2
        (tableA2b_encChar ⟨_, h3⟩)]
      norm_num
      have e4 : b / 16 * 64 + b % 16 * 4 = b * 4 := by omega
      rw [e4]
      have e5 : b * 4 / 4 % 256 = b := by omega
      rw [e5]
      rw [a2b_pad_end _ _ _ _ _ (Or.inr rfl)]
      simp
  | case4 a b c rest ih =>
      have ha : a < 256 := h a (by simp)
      have hb : b < 256 := h b (by simp)
      have hc : c < 256 := h c (by simp)
      have h1 : a / 4 < 64 := by omega
      have h2 : a % 4 * 16 + b / 16 < 64 := by omega
      have h3 : b % 16 * 4 + c / 64 < 64 := by omega
      have h4 : c % 64 < 64 := by omega
      have hrest : ∀ x ∈ rest, x < 256 := fun x hx => h x (by simp [hx])
      rw [show b64encode (a :: b :: c :: rest) =
        encChar (a / 4) :: encChar (a % 4 * 16 + b / 16) ::
          encChar (b % 16 * 4 + c / 64) :: encChar (c % 64) :: b64encode rest from rfl]
      rw [a2b_step _ _ _ _ _ _ _ (encChar_plain ⟨_, h1⟩).1 (encChar_plain ⟨_, h1⟩).2
        (tableA2b_encChar ⟨_, h1⟩)]
      norm_num
      rw [a2b_step _ _ _ _ _ _ _ (encChar_plain ⟨_, h2⟩).1 (encChar_plain ⟨_, h2⟩).2
        (tableA2b_encChar ⟨_, h2⟩)]
      norm_num
      have e2 : (a / 4 * 64 + (a % 4 * 16 + b / 16)) % 16 = b / 16 := by omega
      have e3 : (a / 4 * 64 + (a % 4 * 16 + b / 16)) / 16 % 256 = a := by omega
      rw [e2, e3]
      rw [a2b_step _ _ _ _ _ _ _ (encChar_plain ⟨_, h3⟩).1 (encChar_plain ⟨_, h3⟩).2
        (tableA2b_encChar ⟨_, h3⟩)]
      norm_num
      have e4 : b / 16 * 64 + (b % 16 * 4 + c / 64) = b * 4 + c / 64 := by omega
      rw [e4]
      have e5 : (b * 4 + c / 64) / 4 % 256 = b := by omega
      have e6 : (b * 4 + c / 64) % 4 = c / 64 := by omega
      rw [e5, e6]
      rw [a2b_step _ _ _ _ _ _ _ (encChar_plain ⟨_, h4⟩).1 (encChar_plain ⟨_, h4⟩).2
        (tableA2b_encChar ⟨_, h4⟩)]
      norm_num
      have e7 : c / 64 * 64 + c % 64 = c := by omega
      rw [e7]
      have e8 : c % 256 = c := by omega
      have e9 : c % 1 = 0 := by omega
      rw [e8, e9]
      rw [ih hrest]
      simp

/-- Decoding inverts encoding on byte lists (all elements `< 256`). -/
theorem b64decode_b64encode (bs : List Nat) (h : ∀ b ∈ bs, b < 256) :
    b64decode (b64encode bs) = .ok bs := by
  have := a2bBase64_b64encode bs h []
  simpa [b64decode] using this

/-! ## Python objects and the injection protocol

A Python object is modelled by its `__dict__`: an insertion-ordered list
of field names and values.  `pickle` and `hashlib.sha224` are external
collaborators; they are passed in as a `Collab` record.  The only contract
the code relies on (and that the real collaborators provide) is
`pickle.loads(pickle.dumps(x)) == x`, which appears as a hypothesis where
needed. -/

/-- Values stored in an object's `__dict__`. -/
inductive PyVal where
  | str (s : String)
  | pybool (b : Bool)
  | none
  | bytes (bs : List Nat)
  | path (p : String)
  | int (i : Int)
deriving DecidableEq, Repr

/-- A Python object, given by its `__dict__` in insertion order. -/
structure PyObj where
  fields : List (String × PyVal)
deriving DecidableEq, Repr

/-- Model of Python `key.startswith("_")` for a one-character prefix: the
first character is an underscore. -/
def startswithUnderscore (s : String) : Bool :=
  match s.data with
  | [] => false
  | c :: _ => c == '_'

/-- Update a `__dict__` at a key, preserving insertion order; a missing
key is appended at the end (Python `setattr` semantics). -/
def setattrFields (k : String) (v : PyVal) : List (String × PyVal) → List (String × PyVal)
  | [] => [(k, v)]
  | (k', v') :: rest => if k' = k then (k, v) :: rest else (k', v') :: setattrFields k v rest

/-- Python `setattr(o, k, v)`. -/
def pySetattr (o : PyObj) (k : String) (v : PyVal) : PyObj :=
  ⟨setattrFields k v o.fields⟩

/-- External collaborators of the injection protocol: `pickle.dumps`,
`pickle.loads` (`none` models an unpickling error) and
`hashlib.sha224(...).hexdigest()`. -/
structure Collab where
  pickleDumps : PyObj → List Nat
  pickleLoads : List Nat → Option PyObj
  sha224hex : List Nat → String

/-- Result of `BaseInjectable._dumps`: the dictionary
`{checksum, data, injectable}`.  `data` is the base64 text as a list of
ASCII codes. -/
structure DumpsResult where
  checksum : String
  data : List Nat
  injectable : String
deriving DecidableEq, Repr

namespace BaseInjectable

/-- Model of `BaseInjectable._dumps` (injectable.py lines 54-72): pickle
the object, take the SHA-224 hex digest of the pickled bytes, base64
encode them, and generate the bootstrap script (`_injectable` is abstract
in the source; it is the parameter `injGen`). -/
def dumps (C : Collab) (injGen : String → List Nat → String) (x : PyObj) : DumpsResult :=
  let pickleData := C.pickleDumps x
  let checksum := C.sha224hex pickleData
  let data := b64encode pickleData
  { checksum := checksum, data := data, injectable := injGen checksum data }

/-- Model of `BaseInjectable._loads` (injectable.py lines 25-52).
`clsNew` is the constructor `cls(*posargs)` of the concrete class (`none`
models a constructor exception).  The guard `type(data) != str` of the
source is statically satisfied: `data` models a Python `str`.  The
positional arguments are the values of the non-underscore fields in
`__dict__` order; underscore fields are restored with `setattr`. -/
def loads (C : Collab) (clsNew : List PyVal → Option PyObj) (checksum : String)
    (data : List Nat) : Except String PyObj :=
  match b64decode data with
  | .error e => .error e
  | .ok tmp =>
      if checksum ≠ C.sha224hex tmp then
        .error "Hashes do not match. Will not load untrusted object."
      else
        match C.pickleLoads tmp with
        | Option.none => .error "pickle.loads raised"
        | Option.some obj =>
            let posargs :=
              (obj.fields.filter (fun kv => !startswithUnderscore kv.1)).map Prod.snd
            let hiddenargs := obj.fields.filter (fun kv => startswithUnderscore kv.1)
            match clsNew posargs with
            | Option.none => .error "constructor raised"
            | Option.some newCls =>
                .ok (hiddenargs.foldl (fun o kv => pySetattr o kv.1 kv.2) newCls)

end BaseInjectable

/-- Model of `pathlib.Path(v)` applied to a constructor argument:
identity on paths, conversion on strings, a `TypeError` (modelled as
`none`) otherwise. -/
def pathOf : PyVal → Option PyVal
  | .str s => some (.path s)
  | .path p => some (.path p)
  | _ => Option.none

/-- Constructor of `File` (`cleantest/data/file.py` lines 46-55; `Dir`
delegates to it): store `src`, coerce `dest` through `pathlib.Path`, store
`overwrite` and initialise `_data = None`.  Called with two arguments,
`overwrite` defaults to `False`. -/
def fileNew : List PyVal → Option PyObj
  | [src, dest] =>
      match pathOf dest with
      | Option.some d =>
          some ⟨[("src", src), ("dest", d), ("overwrite", .pybool false), ("_data", .none)]⟩
      | Option.none => Option.none
  | [src, dest, overwrite] =>
      match pathOf dest with
      | Option.some d =>
          some ⟨[("src", src), ("dest", d), ("overwrite", overwrite), ("_data", .none)]⟩
      | Option.none => Option.none
  | _ => Option.none

/-- Setting a fresh key appends it at the end of the `__dict__`. -/
theorem setattrFields_fresh (k : String) (v : PyVal) (base : List (String × PyVal))
    (hfresh : ∀ kv ∈ base, k ≠ kv.1) :
    setattrFields k v base = base ++ [(k, v)] := by
  induction base with
  | nil => simp [setattrFields]
  | cons b bs ih =>
      have hb : k ≠ b.1 := hfresh b (by simp)
      simp only [setattrFields, List.cons_append]
      rw [if_neg (fun h => hb h.symm), ih (fun kv h => hfresh kv (by simp [h]))]

/-- Folding `setattr` over fresh, mutually distinct keys appends them. -/
theorem foldl_setattr_fresh (base l : List (String × PyVal))
    (hdisj : ∀ kv ∈ l, ∀ kv' ∈ base, kv.1 ≠ kv'.1)
    (hnd : (l.map Prod.fst).Nodup) :
    l.foldl (fun o kv => pySetattr o kv.1 kv.2) ⟨base⟩ = ⟨base ++ l⟩ := by
  induction l generalizing base with
  | nil => simp
  | cons kv rest ih =>
      have hfresh : ∀ kv' ∈ base, kv.1 ≠ kv'.1 := hdisj kv (by simp)
      have hstep : pySetattr ⟨base⟩ kv.1 kv.2 = ⟨base ++ [kv]⟩ := by
        simp only [pySetattr]
        rw [setattrFields_fresh kv.1 kv.2 base hfresh]
      rw [List.foldl_cons, hstep, ih (base ++ [kv])]
      · simp
      · intro kv' h' kv'' h''
        rcases List.mem_append.mp h'' with h'' | h''
        · exact hdisj kv' (by simp [h']) kv'' h''
        · have : kv'' = kv := by simpa using h''
          subst this
          have : kv'.1 ∈ rest.map Prod.fst := List.mem_map_of_mem Prod.fst h'
          intro hEq
          rw [List.map_cons] at hnd
          exact (List.nodup_cons.mp hnd).1 (hEq ▸ this)
      · rw [List.map_cons] at hnd
        exact (List.nodup_cons.mp hnd).2

/-- C1: For every Injectable object `x` of the `File`/`Dir` shape (the
public fields `src`, `dest : Path`, `overwrite` in constructor order,
followed by the private fields, `_data` first), deserializing the output
of serialization reconstructs an object equal to `x`: `_loads` on the
checksum and data produced by `_dumps` returns `x`, with both the public
constructor arguments and the underscore-prefixed private state restored.
The pickle collaborator is assumed to round-trip on `x`, which is its
documented contract. -/
theorem C1_loads_dumps_roundtrip (C : Collab) (injGen : String → List Nat → String)
    (x : PyObj) (s ov : PyVal) (d : String) (dd : PyVal)
    (extra : List (String × PyVal))
    (hx : x.fields = ("src", s) :: ("dest", PyVal.path d) :: ("overwrite", ov) ::
      ("_data", dd) :: extra)
    (hextra : ∀ kv ∈ extra, startswithUnderscore kv.1 = true)
    (hnodup : ((("_data", dd) :: extra).map Prod.fst).Nodup)
    (hbytes : ∀ b ∈ C.pickleDumps x, b < 256)
    (hpickle : C.pickleLoads (C.pickleDumps x) = some x) :
    BaseInjectable.loads C fileNew (BaseInjectable.dumps C injGen x).checksum
      (BaseInjectable.dumps C injGen x).data = .ok x := by
  have hdec := b64decode_b64encode (C.pickleDumps x) hbytes
  simp only [BaseInjectable.dumps, BaseInjectable.loads, hdec, hpickle]
  rw [if_neg (by simp)]
  have hsrc : startswithUnderscore "src" = false := rfl
  have hdest : startswithUnderscore "dest" = false := rfl
  have hov : startswithUnderscore "overwrite" = false := rfl
  have hdat : startswithUnderscore "_data" = true := rfl
  have hex1 : List.filter (fun kv => !startswithUnderscore kv.1) extra = [] :=
    List.filter_eq_nil_iff.mpr (fun kv hkv => by simp [hextra kv hkv])
  have hex2 : List.filter (fun kv => startswithUnderscore kv.1) extra = extra :=
    List.filter_eq_self.mpr (fun kv hkv => by simp [hextra kv hkv])
  have hfilter_pos :
      (x.fields.filter (fun kv => !startswithUnderscore kv.1)).map Prod.snd =
        [s, .path d, ov] := by
    simp [hx, List.filter_cons, hsrc, hdest, hov, hdat, hex1]
  have hfilter_hid :
      x.fields.filter (fun kv => startswithUnderscore kv.1) = ("_data", dd) :: extra := by
    simp [hx, List.filter_cons, hsrc, hdest, hov, hdat, hex2]
  rw [hfilter_pos, hfilter_hid]
  simp only [fileNew, pathOf]
  rw [List.foldl_cons]
  have hset1 :
      pySetattr ⟨[("src", s), ("dest", PyVal.path d), ("overwrite", ov), ("_data", PyVal.none)]⟩
        "_data" dd =
        ⟨[("src", s), ("dest", PyVal.path d), ("overwrite", ov), ("_data", dd)]⟩ := by
    simp [pySetattr, setattrFields]
  rw [hset1, foldl_setattr_fresh _ extra]
  · simp only [List.cons_append, List.nil_append]
    rw [← hx]
  · intro kv h' kv'' h''
    have hu := hextra kv h'
    have hnd := hnodup
    rw [List.map_cons, List.nodup_cons] at hnd
    intro hEq
    simp only [List.mem_cons, List.not_mem_nil, or_false] at h''
    rcases h'' with h | h | h | h
    · rw [h] at hEq
      rw [hEq] at hu
      exact absurd (show startswithUnderscore "src" = true from hu) (by decide)
    · rw [h] at hEq
      rw [hEq] at hu
      exact absurd (show startswithUnderscore "dest" = true from hu) (by decide)
    · rw [h] at hEq
      rw [hEq] at hu
      exact absurd (show startswithUnderscore "overwrite" = true from hu) (by decide)
    · rw [h] at hEq
      exact hnd.1 (hEq ▸ List.mem_map_of_mem Prod.fst h')
  · have hnd := hnodup
    rw [List.map_cons, List.nodup_cons] at hnd
    exact hnd.2

/-- A concrete `File` object, as built by `File("a", "b")`. -/
def fileObj0 : PyObj :=
  ⟨[("src", .str "a"), ("dest", .path "b"), ("overwrite", .pybool false), ("_data", .none)]⟩

/-- Trivial bootstrap-script generator used for concrete evaluations. -/
def injGen0 : String → List Nat → String := fun _ _ => ""

/-- Concrete collaborator instantiation: pickle maps `fileObj0` to a fixed
four-byte stream (a pickle stream always ends with the STOP opcode 0x2e),
and the digest is the decimal value of the byte string.  Only the
round-trip contract `pickleLoads (pickleDumps x) = some x` matters. -/
def collab0 : Collab where
  pickleDumps := fun _ => [128, 4, 75, 46]
  pickleLoads := fun bs => if bs = [128, 4, 75, 46] then some fileObj0 else Option.none
  sha224hex := fun bs => toString (bs.foldl (fun a b => a * 256 + b) 0)

/-- Witness for C1 at a concrete `File` object and collaborator. -/
theorem C1_loads_dumps_roundtrip_witness :
    BaseInjectable.loads collab0 fileNew
        (BaseInjectable.dumps collab0 injGen0 fileObj0).checksum
        (BaseInjectable.dumps collab0 injGen0 fileObj0).data = .ok fileObj0 :=
  C1_loads_dumps_roundtrip collab0 injGen0 fileObj0 (.str "a") (.pybool false) "b"
    (.none) [] rfl (by simp) (by simp) (by decide) rfl

/-- C2 fails on the code: the serialized payload of `fileObj0` is the
base64 text `gARLLg==`; flipping bit 3 of the character at index 5 turns
`g` (0x67) into `o` (0x6f), a single-bit corruption.  CPython's lenient
base64 decoder discards the unused trailing bits of the final data
character before the padding, so the corrupted text decodes to the same
bytes, the checksum matches, and `_loads` returns the reconstructed
object instead of raising IntegrityError. -/
theorem C2_bitflip_counterexample :
    (BaseInjectable.dumps collab0 injGen0 fileObj0).data =
        [103, 65, 82, 76, 76, 103, 61, 61] ∧
      (BaseInjectable.dumps collab0 injGen0 fileObj0).data.set 5 (103 ^^^ 8) =
        [103, 65, 82, 76, 76, 111, 61, 61] ∧
      BaseInjectable.loads collab0 fileNew
          (BaseInjectable.dumps collab0 injGen0 fileObj0).checksum
          [103, 65, 82, 76, 76, 111, 61, 61] = .ok fileObj0 :=
  ⟨rfl, rfl, rfl⟩

/-- C2 (amended): corrupting the encoded data aborts the load whenever the
corruption is visible after decoding: if the corrupted string still
decodes (under CPython's lenient base64) to bytes whose digest differs
from the recorded checksum, `_loads` raises the integrity error, and if
decoding fails, `_loads` propagates the decoding error; in neither case is
an object returned or a default substituted.  Bit flips confined to the
unused trailing bits of the final data character decode to the same bytes
and are accepted (see the counterexample). -/
theorem C2_amended_corruption (C : Collab) (clsNew : List PyVal → Option PyObj)
    (checksum : String) (data : List Nat) :
    (∀ tmp, b64decode data = .ok tmp → C.sha224hex tmp ≠ checksum →
      BaseInjectable.loads C clsNew checksum data =
        .error "Hashes do not match. Will not load untrusted object.") ∧
    (∀ e, b64decode data = .error e →
      BaseInjectable.loads C clsNew checksum data = .error e) := by
  constructor
  · intro tmp hdec hne
    simp only [BaseInjectable.loads, hdec]
    rw [if_pos (fun h => hne h.symm)]
  · intro e hdec
    simp only [BaseInjectable.loads, hdec]

/-- Witness for the amended C2: a mismatching digest raises the integrity
error, and an undecodable string raises the padding error. -/
theorem C2_amended_corruption_witness :
    BaseInjectable.loads collab0 fileNew "bogus" [] =
        .error "Hashes do not match. Will not load untrusted object." ∧
      BaseInjectable.loads collab0 fileNew "x" [65] = .error "Incorrect padding" :=
  ⟨(C2_amended_corruption collab0 fileNew "bogus" []).1 [] rfl (by decide),
   (C2_amended_corruption collab0 fileNew "x" [65]).2 "Incorrect padding" rfl⟩

/-! ## Hook registry (`cleantest/meta/base_configurer.py`)

`_HookRegistry` is a process-wide singleton holding a `metadata` set of
`(name, classification)` pairs and two deques `startenv` / `stopenv`.
Deques are modelled as lists whose head is the left end, so
`appendleft` is `cons` and `pop()` (right end) takes the last element.
`StartEnvHook` and `StopEnvHook` are frozen dataclasses; they are modelled
by one structure with a class tag used exactly where the source dispatches
on `__class__.__name__`. -/

/-- The classification of a hook: its Python class. -/
inductive HookClass where
  | startEnv
  | stopEnv
deriving DecidableEq, Repr

/-- `hook.__class__.__name__` for a hook. -/
def HookClass.className : HookClass → String
  | .startEnv => "StartEnvHook"
  | .stopEnv => "StopEnvHook"

/-- An installable package payload; only the class name is relevant to the
dispatch in `_handle_startenv_hooks` (archon.py line 83 and 94). -/
structure Pkg where
  className : String
deriving DecidableEq, Repr

/-- A `File`/`Dir` artifact payload: `src`, `dest`, `overwrite`. -/
structure Artifact where
  src : String
  dest : String
  overwrite : Bool := false
deriving DecidableEq, Repr

/-- A hook: `StartEnvHook{name, packages, push}` or
`StopEnvHook{name, ...}` (the archon reads the field `pull` on stop
hooks).  Empty lists model the `None`/empty payloads (both falsy). -/
structure Hook where
  name : String
  cls : HookClass
  packages : List Pkg := []
  push : List Artifact := []
  pull : List Artifact := []
deriving DecidableEq, Repr

/-- The `_HookRegistry` singleton state. -/
structure HookRegistry where
  metadata : List (String × String) := []
  startenv : List Hook := []
  stopenv : List Hook := []
deriving DecidableEq, Repr

/-- Model of `_HookRegistry.lint` (base_configurer.py lines 43-56): raise
if the metadata set contains a pair whose first component is the hook's
name and whose second component equals the hook's class name. -/
def HookRegistry.lint (r : HookRegistry) (hook : Hook) : Except String Unit :=
  if (r.metadata.filter
      (fun h => hook.name == h.1 && hook.cls.className == h.2)).length > 0 then
    .error ("Hook type " ++ hook.cls.className ++ " with name " ++ hook.name ++
      " already exists.")
  else
    .ok ()

/-- Python `set.add`, on a list kept duplicate-free. -/
def setAdd (s : List (String × String)) (x : String × String) : List (String × String) :=
  if x ∈ s then s else s ++ [x]

/-- Model of `BaseConfigurer.register_hook` (base_configurer.py lines
80-93) over its variadic hook tuple.  For each hook: `lint`, then
`appendleft` into the queue selected by the hook's class name, then add to
the metadata set.  The source records
`(new_hook.name, hook.__class__.__name__)` where `hook` is the *varargs
tuple* itself, so the classification stored in metadata is the literal
string `"tuple"`, never the hook's class name. -/
def registerHook (r : HookRegistry) (hooks : List Hook) : Except String HookRegistry :=
  match hooks with
  | [] => .ok r
  | newHook :: rest =>
      match r.lint newHook with
      | .error e => .error e
      | .ok _ =>
          let r' :=
            match newHook.cls with
            | .startEnv => { r with startenv := newHook :: r.startenv }
            | .stopEnv => { r with stopenv := newHook :: r.stopenv }
          registerHook
            { r' with metadata := setAdd r'.metadata (newHook.name, "tuple") } rest

/-- The body of the `while hooks: hook = hooks.pop()` loop of
`_handle_startenv_hooks` / `_handle_stopenv_hooks` (archon.py lines 85-86
and 113-114), with the iteration count made explicit: `deque.pop()`
removes from the right end, i.e. the last element of the queue. -/
def popLoop : Nat → List Hook → List Hook
  | 0, _ => []
  | _ + 1, [] => []
  | n + 1, h :: t =>
      (h :: t).getLast (by simp) :: popLoop n (h :: t).dropLast

/-- The consumption order of the `while hooks: hook = hooks.pop()` loop
(it runs once per queue element). -/
def dequePopOrder (q : List Hook) : List Hook := popLoop q.length q

/-- The pop loop on sufficient fuel yields the reverse of the queue. -/
theorem popLoop_eq_reverse :
    ∀ (n : Nat) (q : List Hook), q.length ≤ n → popLoop n q = q.reverse := by
  intro n
  induction n with
  | zero =>
      intro q hq
      have hq0 : q = [] := List.eq_nil_of_length_eq_zero (Nat.le_zero.mp hq)
      subst hq0
      simp [popLoop]
  | succ n ih =>
      intro q hq
      match q with
      | [] => simp [popLoop]
      | h :: t =>
          rw [popLoop,
            ih ((h :: t).dropLast) (by
              simp only [List.length_dropLast, List.length_cons]
              simp only [List.length_cons] at hq
              omega)]
          conv_rhs => rw [← List.dropLast_append_getLast (show (h :: t) ≠ [] by simp)]
          rw [List.reverse_append]
          simp

/-- Consuming a deque by popping from the right yields its reverse. -/
theorem dequePopOrder_eq_reverse (q : List Hook) : dequePopOrder q = q.reverse :=
  popLoop_eq_reverse q.length q le_rfl

/-- No hook class is named `"tuple"`. -/
theorem className_ne_tuple (c : HookClass) : (c.className == "tuple") = false := by
  cases c <;> rfl

/-- Adding a `"tuple"`-classified entry preserves the metadata invariant. -/
theorem setAdd_tuple (s : List (String × String)) (nm : String)
    (hq : ∀ m ∈ s, m.2 = "tuple") :
    ∀ m ∈ setAdd s (nm, "tuple"), m.2 = "tuple" := by
  intro m hm
  simp only [setAdd] at hm
  split at hm
  · exact hq m hm
  · rcases List.mem_append.mp hm with hm | hm
    · exact hq m hm
    · have hmm : m = (nm, "tuple") := by simpa using hm
      rw [hmm]

/-- One registration step of `register_hook`, unfolded. -/
theorem registerHook_cons (r : HookRegistry) (h : Hook) (t : List Hook)
    (hlint : r.lint h = .ok ()) :
    registerHook r (h :: t) =
      registerHook
        { metadata := setAdd r.metadata (h.name, "tuple"),
          startenv := if h.cls == .startEnv then h :: r.startenv else r.startenv,
          stopenv := if h.cls == .stopEnv then h :: r.stopenv else r.stopenv } t := by
  cases hc : h.cls <;> simp [registerHook, hlint, hc]

/-- As long as every metadata entry carries the classification `"tuple"`
(which registration maintains, by the varargs slip), `register_hook` never
raises and prepends each hook to its queue. -/
theorem registerHook_ok (hs : List Hook) (r : HookRegistry)
    (hmeta : ∀ m ∈ r.metadata, m.2 = "tuple") :
    ∃ r', registerHook r hs = .ok r' ∧
      r'.startenv = (hs.filter (fun h => h.cls == .startEnv)).reverse ++ r.startenv ∧
      r'.stopenv = (hs.filter (fun h => h.cls == .stopEnv)).reverse ++ r.stopenv ∧
      ∀ m ∈ r'.metadata, m.2 = "tuple" := by
  induction hs generalizing r with
  | nil => exact ⟨r, rfl, by simp, by simp, hmeta⟩
  | cons h t ih =>
      have hlint : r.lint h = .ok () := by
        simp only [HookRegistry.lint]
        rw [if_neg]
        rw [List.filter_eq_nil_iff.mpr]
        · simp
        · intro m hm
          have h2 := hmeta m hm
          simp [h2, className_ne_tuple]
      rw [registerHook_cons r h t hlint]
      cases hc : h.cls with
      | startEnv =>
          simp only [show (HookClass.startEnv == HookClass.startEnv) = true from rfl,
            show (HookClass.startEnv == HookClass.stopEnv) = false from rfl, if_true,
            Bool.false_eq_true, if_false]
          obtain ⟨r', hr', hst', ho', hm'⟩ :=
            ih { metadata := setAdd r.metadata (h.name, "tuple"),
                 startenv := h :: r.startenv,
                 stopenv := r.stopenv }
              (setAdd_tuple r.metadata h.name hmeta)
          refine ⟨r', hr', ?_, ?_, hm'⟩
          · rw [hst']
            simp [List.filter_cons, hc]
          · rw [ho']
            simp [List.filter_cons, hc]
      | stopEnv =>
          simp only [show (HookClass.stopEnv == HookClass.startEnv) = false from rfl,
            show (HookClass.stopEnv == HookClass.stopEnv) = true from rfl, if_true,
            Bool.false_eq_true, if_false]
          obtain ⟨r', hr', hst', ho', hm'⟩ :=
            ih { metadata := setAdd r.metadata (h.name, "tuple"),
                 startenv := r.startenv,
                 stopenv := h :: r.stopenv }
              (setAdd_tuple r.metadata h.name hmeta)
          refine ⟨r', hr', ?_, ?_, hm'⟩
          · rw [hst']
            simp [List.filter_cons, hc]
          · rw [ho']
            simp [List.filter_cons, hc]

/-- Concrete start-environment hooks used in evaluations. -/
def hookA : Hook := { name := "h1", cls := .startEnv }

/-- Second concrete hook, same name and classification as `hookA`. -/
def hookA' : Hook := { name := "h1", cls := .startEnv }

/-- Concrete hook named `h2`. -/
def hookB : Hook := { name := "h2", cls := .startEnv }

/-- Concrete hook named `h3`. -/
def hookC : Hook := { name := "h3", cls := .startEnv }

/-- C3 fails on the code although the rejection is clearly intended:
`register_hook` records `(new_hook.name, hook.__class__.__name__)` where
`hook` is the varargs tuple, so the metadata classification is always
`"tuple"` and `lint`'s comparison with the real class name never matches.
Registering two hooks with the same name and classification therefore
raises nothing — the second registration succeeds and both hooks are
enqueued, whether the hooks are registered in one call or in two. -/
theorem C3_duplicate_not_rejected :
    registerHook {} [hookA, hookA'] =
        .ok { metadata := [("h1", "tuple")], startenv := [hookA', hookA], stopenv := [] } ∧
      registerHook {} [hookA] =
        .ok { metadata := [("h1", "tuple")], startenv := [hookA], stopenv := [] } ∧
      registerHook { metadata := [("h1", "tuple")], startenv := [hookA], stopenv := [] }
          [hookA'] =
        .ok { metadata := [("h1", "tuple")], startenv := [hookA', hookA], stopenv := [] } :=
  ⟨rfl, rfl, rfl⟩

/-- C4: hooks registered in order under one classification are dispatched
in exactly that order (strict FIFO): registration prepends with
`appendleft`, and the handler loops of `_handle_startenv_hooks` (run
during deploy) and `_handle_stopenv_hooks` (run during remove) consume
with `pop()` from the opposite end. -/
theorem C4_hook_dispatch_fifo (hs : List Hook) (c : HookClass)
    (hcls : ∀ h ∈ hs, h.cls = c) :
    (registerHook {} hs).map
        (fun r' => dequePopOrder r'.startenv ++ dequePopOrder r'.stopenv) = .ok hs := by
  obtain ⟨r', hr', hs', ho', _⟩ := registerHook_ok hs {} (by simp)
  rw [hr']
  simp only [Except.map, hs', ho', dequePopOrder_eq_reverse]
  cases c with
  | startEnv =>
      have h1 : hs.filter (fun h => h.cls == HookClass.startEnv) = hs :=
        List.filter_eq_self.mpr (fun h hm => by simp [hcls h hm])
      have h2 : hs.filter (fun h => h.cls == HookClass.stopEnv) = [] :=
        List.filter_eq_nil_iff.mpr (fun h hm => by simp [hcls h hm])
      simp [h1, h2]
  | stopEnv =>
      have h1 : hs.filter (fun h => h.cls == HookClass.startEnv) = [] :=
        List.filter_eq_nil_iff.mpr (fun h hm => by simp [hcls h hm])
      have h2 : hs.filter (fun h => h.cls == HookClass.stopEnv) = hs :=
        List.filter_eq_self.mpr (fun h hm => by simp [hcls h hm])
      simp [h1, h2]

/-- Witness for C4 at three concrete start hooks `h1, h2, h3`. -/
theorem C4_hook_dispatch_fifo_witness :
    (registerHook {} [hookA, hookB, hookC]).map
        (fun r' => dequePopOrder r'.startenv ++ dequePopOrder r'.stopenv) =
      .ok [hookA, hookB, hookC] :=
  C4_hook_dispatch_fifo [hookA, hookB, hookC] .startEnv (by decide)

/-! ## Environment store (`cleantest/env.py`)

`Env` is a process-wide singleton wrapping the dict `_env`.  Values are
either scalars or lists; dicts are insertion-ordered association lists
with unique keys. -/

/-- A value in the environment store. -/
inductive EnvVal where
  | scalar (s : String)
  | list (xs : List String)
deriving DecidableEq, Repr

/-- `os.pathsep` on the POSIX platforms the LXD provider runs on. -/
def osPathsep : String := ":"

/-- `os.pathsep.flatten(xs)`. -/
def pathsepJoin : List String → String
  | [] => ""
  | [x] => x
  | x :: rest => x ++ osPathsep ++ pathsepJoin rest

/-- Python dict assignment `d[k] = v`: replace in place, else append. -/
def dictSet (k : String) (v : EnvVal) : List (String × EnvVal) → List (String × EnvVal)
  | [] => [(k, v)]
  | (k', v') :: rest => if k' = k then (k, v) :: rest else (k', v') :: dictSet k v rest

/-- Python dict lookup `d[k]` (`none` models a KeyError). -/
def dictGet (d : List (String × EnvVal)) (k : String) : Option EnvVal :=
  (d.find? (fun kv => kv.1 == k)).map Prod.snd

namespace Env

/-- Model of `Env.add` (env.py lines 28-34): `self._env.update(env_mapping)`.
`dict.update` assigns every pair of the mapping in order, overwriting the
value of a key that is already present. -/
def add (env mapping : List (String × EnvVal)) : List (String × EnvVal) :=
  mapping.foldl (fun d kv => dictSet kv.1 kv.2 d) env

/-- Model of `Env.get` (env.py lines 48-64): a list value is joined with
`os.pathsep`, any other value is returned as is, and a missing key returns
`default`. -/
def get (env : List (String × EnvVal)) (envVar : String) (default : Option EnvVal) :
    Option EnvVal :=
  match dictGet env envVar with
  | Option.some (.list xs) => some (.scalar (pathsepJoin xs))
  | Option.some v => some v
  | Option.none => default

/-- Model of `Env.dumps` (env.py lines 70-83): rebuild the store as a dict
with every list value joined with `os.pathsep`. -/
def dumps (env : List (String × EnvVal)) : List (String × EnvVal) :=
  env.foldl
    (fun result kv =>
      match kv.2 with
      | .list xs => dictSet kv.1 (.scalar (pathsepJoin xs)) result
      | v => dictSet kv.1 v result)
    []

end Env

/-- Joining a list value as `get`/`dumps` do; identity on scalars. -/
def joinListVal : EnvVal → EnvVal
  | .list xs => .scalar (pathsepJoin xs)
  | v => v

/-- Setting a key present at the head of the dict replaces its value. -/
theorem dictGet_dictSet (d : List (String × EnvVal)) (k : String) (v : EnvVal) :
    dictGet (dictSet k v d) k = some v := by
  induction d with
  | nil => simp [dictSet, dictGet]
  | cons kv rest ih =>
      by_cases hk : kv.1 = k
      · simp [dictSet, hk, dictGet]
      · simp only [dictSet, if_neg hk]
        simp only [dictGet, List.find?]
        rw [show (kv.1 == k) = false by simpa using hk]
        exact ih

/-- Setting a fresh key appends it at the end of the dict. -/
theorem dictSet_fresh (k : String) (v : EnvVal) (base : List (String × EnvVal))
    (hfresh : ∀ kv ∈ base, k ≠ kv.1) :
    dictSet k v base = base ++ [(k, v)] := by
  induction base with
  | nil => simp [dictSet]
  | cons b bs ih =>
      have hb : k ≠ b.1 := hfresh b (by simp)
      have hb' : ¬(b.1 = k) := fun h => hb h.symm
      simp only [dictSet, if_neg hb', List.cons_append, Prod.mk.eta]
      rw [ih (fun kv h => hfresh kv (by simp [h]))]

/-- Under unique keys, `dumps` is a pointwise join of the store. -/
theorem dumps_eq_map (env : List (String × EnvVal))
    (hnd : (env.map Prod.fst).Nodup) :
    Env.dumps env = env.map (fun kv => (kv.1, joinListVal kv.2)) := by
  have H : ∀ (l acc : List (String × EnvVal)),
      (l.map Prod.fst).Nodup →
      (∀ kv ∈ l, ∀ kv' ∈ acc, kv.1 ≠ kv'.1) →
      l.foldl
        (fun result kv =>
          match kv.2 with
          | .list xs => dictSet kv.1 (.scalar (pathsepJoin xs)) result
          | v => dictSet kv.1 v result)
        acc = acc ++ l.map (fun kv => (kv.1, joinListVal kv.2)) := by
    intro l
    induction l with
    | nil => intro acc _ _; simp
    | cons kv rest ih =>
        intro acc hnd' hdisj
        have hfresh : ∀ kv' ∈ acc, kv.1 ≠ kv'.1 := hdisj kv (by simp)
        have hset : ∀ w, dictSet kv.1 w acc = acc ++ [(kv.1, w)] := fun w =>
          dictSet_fresh kv.1 w acc hfresh
        have hstep :
            (match kv.2 with
              | .list xs => dictSet kv.1 (.scalar (pathsepJoin xs)) acc
              | v => dictSet kv.1 v acc) = acc ++ [(kv.1, joinListVal kv.2)] := by
          cases hv : kv.2 <;> simp [hset, joinListVal, hv]
        rw [List.foldl_cons, hstep, ih (acc ++ [(kv.1, joinListVal kv.2)])]
        · simp
        · rw [List.map_cons, List.nodup_cons] at hnd'
          exact hnd'.2
        · intro kv' h' kv'' h''
          rcases List.mem_append.mp h'' with h'' | h''
          · exact hdisj kv' (by simp [h']) kv'' h''
          · have hkk : kv''.1 = kv.1 := by
              have : kv'' = (kv.1, joinListVal kv.2) := by simpa using h''
              rw [this]
            rw [hkk]
            intro hEq
            rw [List.map_cons, List.nodup_cons] at hnd'
            exact hnd'.1 (hEq ▸ List.mem_map_of_mem Prod.fst h')
  have := H env [] hnd (by simp)
  simpa [Env.dumps] using this

/-- C9 fails on the code: `Env.add` is `dict.update`, so a second
contribution for an already-present list-valued key replaces the stored
list entirely instead of appending to it. -/
theorem C9_add_overwrites_counterexample :
    Env.add [("PATH", .list ["a"])] [("PATH", .list ["b"])] = [("PATH", .list ["b"])] ∧
      Env.add [("PATH", .list ["a"])] [("PATH", .list ["b"])] ≠
        [("PATH", EnvVal.list ["a", "b"])] ∧
      Env.get (Env.add [("PATH", .list ["a"])] [("PATH", .list ["b"])]) "PATH"
          Option.none = some (.scalar "b") := by
  refine ⟨rfl, by decide, rfl⟩

/-- C9 (amended): `Env.get` and `Env.dumps` join list-valued entries with
the platform path separator, and `Env.add` has `dict.update` semantics: a
contribution for an already-present key replaces the stored value entirely
(in particular a list is overwritten, not appended to). -/
theorem C9_env_join_and_update (env : List (String × EnvVal)) (k : String)
    (xs : List String) (v : EnvVal)
    (hnd : (env.map Prod.fst).Nodup) :
    (dictGet env k = some (.list xs) →
      Env.get env k Option.none = some (.scalar (pathsepJoin xs))) ∧
      Env.dumps env = env.map (fun kv => (kv.1, joinListVal kv.2)) ∧
      dictGet (Env.add env [(k, v)]) k = some v := by
  refine ⟨?_, dumps_eq_map env hnd, ?_⟩
  · intro hk
    simp [Env.get, hk]
  · simp [Env.add, dictGet_dictSet]

/-- Witness for the amended C9 at a concrete store. -/
theorem C9_env_join_and_update_witness :
    (dictGet [("PATH", EnvVal.list ["a", "b"])] "PATH" = some (.list ["a", "b"]) →
      Env.get [("PATH", EnvVal.list ["a", "b"])] "PATH" Option.none =
        some (.scalar (pathsepJoin ["a", "b"]))) ∧
      Env.dumps [("PATH", EnvVal.list ["a", "b"])] =
        [("PATH", EnvVal.list ["a", "b"])].map (fun kv => (kv.1, joinListVal kv.2)) ∧
      dictGet (Env.add [("PATH", EnvVal.list ["a", "b"])] [("PATH", .scalar "c")])
          "PATH" = some (.scalar "c") :=
  C9_env_join_and_update [("PATH", EnvVal.list ["a", "b"])] "PATH" ["a", "b"]
    (.scalar "c") (by decide)

/-! ## LXD configurer (`cleantest/lxd/config.py`)

`LXDConfigurer._instance_configs` is a dict whose *keys* are strings (the
attribute names of `_DefaultInstances`, or `config.name` for configs added
later) and whose values are `InstanceConfig` objects.  Python objects are
heap references and `fetch_config` returns `copy.deepcopy` of a stored
template which `LXDArchon._deploy` then mutates in place, so the heap is
explicit: `heap` holds every `InstanceConfig` object and `store` maps each
dict key to the address of its object. -/

/-- `InstanceSource` (config.py lines 61-108); the optional
migration/copy fields, all defaulting to `None`, are omitted as no claim
touches them.  The source field `alias` is a reserved word in Lean and is
rendered `imageAlias`. -/
structure InstanceSource where
  imageAlias : String
  mode : String
  protocol : String
  server : String
  type : String
deriving DecidableEq, Repr

/-- `InstanceConfig` (config.py lines 111-146).  The class-body line
`config = Optional[Dict[str, str]] = None` is a slip (an assignment, not
an annotation) and produces no dataclass field; `devices` is omitted as no
claim touches it. -/
structure InstanceConfig where
  name : String
  source : InstanceSource
  architecture : Option String := Option.none
  description : Option String := Option.none
  ephemeral : Bool := false
  instance_type : Option String := Option.none
  profiles : Option (List String) := Option.none
  restore : Option String := Option.none
  stateful : Bool := false
  type : String := "container"
deriving DecidableEq, Repr

instance : Inhabited InstanceConfig :=
  ⟨{ name := "",
     source := { imageAlias := "", mode := "", protocol := "", server := "", type := "" } }⟩

/-- Python exceptions raised by the modelled code. -/
inductive PyErr where
  | lxd (msg : String)
  | key (msg : String)
  | attr (msg : String)
  | fileNotFound (msg : String)
  | fileExists (msg : String)
  | exc (msg : String)
deriving DecidableEq, Repr

/-- Configurer state: object heap plus the `_instance_configs` dict. -/
structure ConfigurerState where
  heap : List InstanceConfig
  store : List (String × Nat)
deriving DecidableEq, Repr

/-- Dereference a heap address. -/
def heapGet (heap : List InstanceConfig) (a : Nat) : InstanceConfig :=
  heap.getD a default

/-- Overwrite a heap cell (in-place mutation of one object). -/
def heapSet (heap : List InstanceConfig) (a : Nat) (c : InstanceConfig) :
    List InstanceConfig :=
  heap.set a c

/-- Model of `LXDConfigurer.fetch_config` (config.py lines 418-434): scan
the stored configs in dict-value order; on the first name match return
`copy.deepcopy(config)` — a fresh heap cell holding a copy of the
template — else raise KeyError. -/
def fetch_config (cs : ConfigurerState) (name : String) :
    Except PyErr (ConfigurerState × Nat) :=
  match (cs.store.map Prod.snd).find? (fun a => (heapGet cs.heap a).name == name) with
  | Option.some a =>
      .ok ({ cs with heap := cs.heap ++ [heapGet cs.heap a] }, cs.heap.length)
  | Option.none => .error (.key ("Instance configuration " ++ name ++ " not found."))

/-- Model of `LXDConfigurer.remove_config` (config.py lines 404-416).  For
each requested name the inner loop iterates over the *keys* of
`_instance_configs`; a key is a `str`, and the loop immediately evaluates
`config.name` on it, which raises AttributeError, so the first iteration
raises whenever the registry is non-empty and the deletion statement is
unreachable.  An empty name tuple, or an empty registry, returns without
error. -/
def remove_config (cs : ConfigurerState) (names : List String) :
    Except PyErr ConfigurerState :=
  match names with
  | [] => .ok cs
  | _ :: _ =>
      match cs.store with
      | [] => .ok cs
      | _ :: _ => .error (.attr "'str' object has no attribute 'name'")

/-- One of the 18 default templates the registry is seeded with. -/
def ubuntuJammyAmd64 : InstanceConfig :=
  { name := "ubuntu-jammy-amd64",
    source := { imageAlias := "ubuntu/jammy/cloud/amd64", mode := "pull",
                protocol := "simplestreams",
                server := "https://images.linuxcontainers.org", type := "image" } }

/-- Another default template. -/
def jammyArm64 : InstanceConfig :=
  { name := "ubuntu-jammy-arm64",
    source := { imageAlias := "ubuntu/jammy/cloud/arm64", mode := "pull",
                protocol := "simplestreams",
                server := "https://images.linuxcontainers.org", type := "image" } }

/-- A configurer seeded as `dict(_DefaultInstances().items())` seeds
`_instance_configs` (representative subset of the 18 defaults; the dict
keys are the attribute names, with underscores). -/
def seededConfigurer : ConfigurerState :=
  { heap := [ubuntuJammyAmd64, jammyArm64],
    store := [("ubuntu_jammy_amd64", 0), ("ubuntu_jammy_arm64", 1)] }

/-- C8 fails on the code although the code's own docstring says
"Does nothing if instance configuration does not exist in the registry":
`remove_config` iterates over the dict *keys* (strings) and evaluates
`config.name` on each key, so on the seeded (non-empty) registry any call
with at least one name — present or absent — raises AttributeError and
the store is never touched; only the degenerate empty-argument call
returns silently. -/
theorem C8_remove_config_raises :
    remove_config seededConfigurer ["nonexistent"] =
        .error (.attr "'str' object has no attribute 'name'") ∧
      remove_config seededConfigurer ["ubuntu-jammy-amd64"] =
        .error (.attr "'str' object has no attribute 'name'") ∧
      remove_config seededConfigurer [] = .ok seededConfigurer :=
  ⟨rfl, rfl, rfl⟩

/-! ## LXD archon (`cleantest/lxd/archon.py`)

The archon talks to the LXD runtime through a client.  The client and the
host file system are external collaborators: their *state* is modelled in
`World` (which instances exist, host files) and their *responses* by an
`Oracle`; every call issued to the client or the host is also recorded in
a trace of `ClientOp`s, in program order.  The `ProcessPoolExecutor`
fan-out is modelled sequentially in work-order construction order (the
per-target behavior the claims are about is unaffected; `executor.map`
yields results in that order and raises on the first failed work order).
`restart`, `remove`, `destroy` and `get_public_address` are not needed by
any claim and are not modelled. -/

/-- Result of executing a command in an instance (`cleantest/meta`'s
`Result`). -/
structure Result where
  exit_code : Int
  stdout : String
  stderr : String
deriving DecidableEq, Repr

/-- One call issued to the LXD client or to the host file system. -/
inductive ClientOp where
  | existsQ (target : String)
  | create (name : String)
  | get (name : String)
  | start (name : String)
  | exec (name : String) (argv : List String)
  | filePut (name : String) (path : String)
  | hostChown (path : String) (owner : String)
  | hostChmod (path : String)
  | hostWrite (path : String)
deriving DecidableEq, Repr

/-- The mutable state visible to the archon: the runtime's instances, the
configurer singleton, the hook registry singleton, the archon's own
`_instances` set, the `Env` singleton and the host file system. -/
structure World where
  instances : List String
  configurer : ConfigurerState
  hookReg : HookRegistry
  archonInstances : List String
  env : List (String × EnvVal)
  hostFiles : List String
deriving DecidableEq, Repr

/-- Responses of the external collaborators: command results inside
instances, host file-type queries, `json.loads` of hook/pull bootstrap
output, the module list returned by `sourcefetch()`, directory listings,
and the pickle/SHA-224 pair used by the local `_loads` during pull. -/
structure Oracle where
  execResult : String → List String → Result
  hostIsFile : String → Bool
  hostIsDir : String → Bool
  dirChildren : String → List String
  jsonEnv : String → List (String × EnvVal)
  pullPayload : String → String × List Nat
  srcModules : List String
  collab : Collab

/-- Python truthiness of an optional integer (`None` and `0` are falsy). -/
def truthyInt : Option Int → Bool
  | Option.none => false
  | Option.some i => !(i == 0)

/-- Python truthiness of an optional string (`None` and `""` are falsy). -/
def truthyStr : Option String → Bool
  | Option.none => false
  | Option.some s => !(s == "")

/-- Python `a or b` rendered into an f-string, for the `chown` arguments
(`uid or username`, `gid or groupname`). -/
def orIntStr (a : Option Int) (b : Option String) : String :=
  if truthyInt a then toString (a.getD 0)
  else
    match b with
    | Option.some s => s
    | Option.none => "None"

/-- Model of `shlex.split` for the whitespace-separated commands used
here. -/
def shlexSplit (s : String) : List String :=
  (s.splitOn " ").filter (fun w => !(w == ""))

/-- The `for target in targets: if not self.exists(target): raise`
prologue shared by `execute`/`push` (and `restart`/`remove`): one
existence query per target, stopping at the first missing one. -/
def checkTargets (w : World) : List String → List ClientOp × Option String
  | [] => ([], Option.none)
  | t :: rest =>
      if w.instances.contains t then
        let (tr, m) := checkTargets w rest
        (ClientOp.existsQ t :: tr, m)
      else
        ([ClientOp.existsQ t], Option.some t)

/-- Python `set.add` on the archon's `_instances` set of names. -/
def strSetAdd (s : List String) (x : String) : List String :=
  if s.contains x then s else s ++ [x]

namespace LXDArchon

/-- Client/host calls of `LXDArchon._push` (archon.py lines 433-463) for
one work order: fetch the instance, make the staging directory, upload the
bootstrap (note the source's missing leading slash in `root/.push/dump`),
run it, then the conditional remote `chown`/`chmod`. -/
def pushOps (target dest : String) (uid : Option Int) (username : Option String)
    (gid : Option Int) (groupname : Option String) (mode : Option Nat) :
    List ClientOp :=
  [ClientOp.get target, ClientOp.exec target ["mkdir", "-p", "/root/.push"],
   ClientOp.filePut target "root/.push/dump",
   ClientOp.exec target ["python3", "/root/.push/dump"]] ++
  (if truthyInt uid || truthyStr username then
    [ClientOp.exec target ["chown", "-R", orIntStr uid username ++ ":", dest]]
  else []) ++
  (if truthyInt gid || truthyStr groupname then
    [ClientOp.exec target ["chown", "-R", ":" ++ orIntStr gid groupname, dest]]
  else []) ++
  (if mode.isSome then
    [ClientOp.exec target ["chmod", "-R", toString (mode.getD 0), dest]]
  else [])

/-- Model of `LXDArchon.push` (archon.py lines 384-431): existence check
for every target first, then the `uid`/`username` and `gid`/`groupname`
mutual-exclusion checks (Python truthiness: `if uid and username`), then
the host file-type dispatch (`File` for a file, `Dir` for a directory —
the downstream client calls are identical, the artifact kind only changes
the uploaded payload), then one `_push` work order per target. -/
def push (O : Oracle) (w : World) (targets : List String) (src dest : String)
    (uid : Option Int) (username : Option String) (gid : Option Int)
    (groupname : Option String) (mode : Option Nat) (overwrite : Bool) :
    List ClientOp × World × Except PyErr Unit :=
  let (tr, missing) := checkTargets w targets
  match missing with
  | Option.some t =>
      (tr, w, .error (.lxd ("Target instance " ++ t ++ " does not exist.")))
  | Option.none =>
      if truthyInt uid && truthyStr username then
        (tr, w, .error (.lxd "Specify only uid or username, not both."))
      else if truthyInt gid && truthyStr groupname then
        (tr, w, .error (.lxd "Specify only gid or groupname, not both."))
      else if O.hostIsFile src || O.hostIsDir src then
        (tr ++ (targets.map
            (fun t => pushOps t dest uid username gid groupname mode)).flatten,
          w, .ok ())
      else
        (tr, w, .error (.fileNotFound (src ++ " not found on system.")))

/-- Field lookup on a reconstructed Python object. -/
def objField (o : PyObj) (k : String) : Option PyVal :=
  (o.fields.find? (fun kv => kv.1 == k)).map Prod.snd

/-- Host-side effect of `result.dump()` during pull: `File.dump`
(file.py lines 99-121) and `Dir.dump` at the path level — refuse when the
destination exists and `overwrite` is false, refuse when no data was
loaded, otherwise write the destination. -/
def objDump (hostFiles : List String) (o : PyObj) :
    List ClientOp × List String × Except PyErr Unit :=
  match objField o "dest", objField o "overwrite", objField o "_data" with
  | Option.some (.path dest), Option.some (.pybool ow), Option.some dd =>
      if hostFiles.contains dest && !ow then
        ([], hostFiles,
          .error (.fileExists (dest ++ " already exists. Set overwrite = True to overwrite "
            ++ dest ++ ".")))
      else
        match dd with
        | .none => ([], hostFiles, .error (.exc "Nothing to write."))
        | _ => ([ClientOp.hostWrite dest], hostFiles ++ [dest], .ok ())
  | _, _, _ => ([], hostFiles, .error (.attr "object has no dest/overwrite/_data"))

/-- Body of `LXDArchon.pull` after its validations (archon.py lines
355-382): remote file-type probe, upload and run the pull bootstrap,
`_loads` the printed payload locally, `dump()` it to the host, then the
host-side `chown`/`chmod` (recursively over the children when the
destination is a directory; note the source's `gid or groupname is not
None` precedence in the file branch). -/
def pullTail (O : Oracle) (w : World) (target src dest : String)
    (uid : Option Int) (username : Option String) (gid : Option Int)
    (groupname : Option String) (mode : Option Nat) : List ClientOp × World ×
      Except PyErr Unit :=
  let isF := (O.execResult target ["test", "-f", src]).exit_code == 0
  let isD := (O.execResult target ["test", "-d", src]).exit_code == 0
  let ops0 := [ClientOp.get target, ClientOp.exec target ["mkdir", "-p", "/root/.pull"],
               ClientOp.exec target ["test", "-f", src]] ++
    (if isF then [] else [ClientOp.exec target ["test", "-d", src]])
  if !isF && !isD then
    (ops0, w, .error (.lxd (src ++ " is neither file or directory in " ++ target ++ ".")))
  else
    let ops1 := ops0 ++ [ClientOp.filePut target "/root/.pull/load",
                         ClientOp.exec target ["python3", "/root/.pull/load"]]
    let payload := O.pullPayload (O.execResult target ["python3", "/root/.pull/load"]).stdout
    match BaseInjectable.loads O.collab fileNew payload.1 payload.2 with
    | .error e => (ops1, w, .error (.exc e))
    | .ok result =>
        match objDump w.hostFiles result with
        | (dops, hostFiles', .error e) =>
            (ops1 ++ dops, { w with hostFiles := hostFiles' }, .error e)
        | (dops, hostFiles', .ok _) =>
            let w' := { w with hostFiles := hostFiles' }
            let resultDest :=
              match objField result "dest" with
              | Option.some (.path p) => p
              | _ => ""
            if O.hostIsDir resultDest then
              (ops1 ++ dops ++ ((O.dirChildren resultDest).map (fun child =>
                  (if truthyInt uid || truthyStr username then
                    [ClientOp.hostChown child (orIntStr uid username)] else []) ++
                  (if truthyInt gid || truthyStr groupname then
                    [ClientOp.hostChown child (orIntStr gid groupname)] else []) ++
                  (if mode.isSome then [ClientOp.hostChmod child] else []))).flatten,
                w', .ok ())
            else
              (ops1 ++ dops ++
                (if !(uid == Option.none) || !(username == Option.none) then
                  [ClientOp.hostChown dest (orIntStr uid username)] else []) ++
                (if truthyInt gid || !(groupname == Option.none) then
                  [ClientOp.hostChown dest (orIntStr gid groupname)] else []) ++
                (if mode.isSome then [ClientOp.hostChmod dest] else []),
                w', .ok ())

/-- Model of `LXDArchon.pull` (archon.py lines 323-382): existence check
for the single target, then the two mutual-exclusion checks, then the
pull body. -/
def pull (O : Oracle) (w : World) (target src dest : String)
    (uid : Option Int) (username : Option String) (gid : Option Int)
    (groupname : Option String) (mode : Option Nat) (overwrite : Bool) :
    List ClientOp × World × Except PyErr Unit :=
  if !(w.instances.contains target) then
    ([ClientOp.existsQ target], w,
      .error (.lxd ("Target instance " ++ target ++ " does not exist.")))
  else if truthyInt uid && truthyStr username then
    ([ClientOp.existsQ target], w, .error (.lxd "Specify only uid or username, not both."))
  else if truthyInt gid && truthyStr groupname then
    ([ClientOp.existsQ target], w, .error (.lxd "Specify only gid or groupname, not both."))
  else
    match pullTail O w target src dest uid username gid groupname mode with
    | (ops, w', res) => (ClientOp.existsQ target :: ops, w', res)

/-- Model of `LXDArchon.execute` (archon.py lines 239-270): existence
check for every target before anything else, then one `_execute` work
order per target (fetch the instance and run the `shlex`-split command,
passing the `Env` snapshot as process environment). -/
def execute (O : Oracle) (w : World) (targets : List String) (command : String) :
    List ClientOp × World × Except PyErr (List (String × Result)) :=
  let (tr, missing) := checkTargets w targets
  match missing with
  | Option.some t =>
      (tr, w, .error (.lxd ("Target instance " ++ t ++ " does not exist.")))
  | Option.none =>
      (tr ++ (targets.map (fun t =>
          [ClientOp.get t, ClientOp.exec t (shlexSplit command)])).flatten,
        w, .ok (targets.map (fun t => (t, O.execResult t (shlexSplit command)))))

/-- One package step of `_handle_startenv_hooks` (archon.py lines 87-95):
make the staging directory, upload the package bootstrap, run it, and if
the package class is `charmlib` merge the JSON on stdout into `Env`. -/
def pkgOps (O : Oracle) (inst : String) (env : List (String × EnvVal)) (p : Pkg) :
    List ClientOp × List (String × EnvVal) :=
  let ops := [ClientOp.exec inst ["mkdir", "-p", "/root/init/pkg"],
              ClientOp.filePut inst "/root/init/pkg/install",
              ClientOp.exec inst ["python3", "/root/init/pkg/install"]]
  if p.className.toLower == "charmlib" then
    (ops, Env.add env (O.jsonEnv (O.execResult inst ["python3",
      "/root/init/pkg/install"]).stdout))
  else
    (ops, env)

/-- One hook of `_handle_startenv_hooks`: all its packages, then all its
pushed artifacts (load locally, upload the dump bootstrap, run it). -/
def hookOps (O : Oracle) (inst : String) (env : List (String × EnvVal)) (hk : Hook) :
    List ClientOp × List (String × EnvVal) :=
  let pres := hk.packages.foldl (fun acc p =>
      match pkgOps O inst acc.2 p with
      | (ops, e) => (acc.1 ++ ops, e)) (([] : List ClientOp), env)
  (pres.1 ++ (hk.push.map (fun _ =>
      [ClientOp.exec inst ["mkdir", "-p", "/root/init/data"],
       ClientOp.filePut inst "/root/init/data/dump",
       ClientOp.exec inst ["python3", "/root/init/data/dump"]])).flatten,
    pres.2)

/-- `_handle_startenv_hooks` (archon.py lines 76-102): consume the hook
deque with `pop()` (right end) and process each hook in that order. -/
def handleStartenvOps (O : Oracle) (inst : String) (env : List (String × EnvVal))
    (hooks : List Hook) : List ClientOp × List (String × EnvVal) :=
  (dequePopOrder hooks).foldl (fun acc hk =>
      match hookOps O inst acc.2 hk with
      | (ops, e) => (acc.1 ++ ops, e)) (([] : List ClientOp), env)

/-- The resource-upload loop of `_deploy` (archon.py lines 216-224): one
`self.push(config.name, src=resource.src, dest=resource.dest,
username="root", groupname="root")` per resource. -/
def pushResources (O : Oracle) (w : World) (target : String) :
    List Artifact → List ClientOp × World × Except PyErr Unit
  | [] => ([], w, .ok ())
  | r :: rest =>
      match push O w [target] r.src r.dest Option.none (Option.some "root")
          Option.none (Option.some "root") Option.none false with
      | (ops, w', .error e) => (ops, w', .error e)
      | (ops, w', .ok _) =>
          match pushResources O w' target rest with
          | (ops2, w'', res) => (ops ++ ops2, w'', res)

/-- Model of `LXDArchon._deploy` (archon.py lines 191-237): fetch the
image template (a deep copy), set its `name` to the target *on the copy*,
then unconditionally `create` + `get` + `start` the instance (the LXD
runtime rejects a duplicate instance name), inject the cleantest support
modules, upload the resources, run the provision script if given, and run
the start-environment hooks. -/
def deployOne (O : Oracle) (w : World) (target image : String)
    (provisionScript : Option String) (resources : List Artifact) :
    List ClientOp × World × Except PyErr String :=
  match fetch_config w.configurer image with
  | .error e => ([], w, .error e)
  | .ok (cs1, addr) =>
      let cs2 := { cs1 with
        heap := heapSet cs1.heap addr { heapGet cs1.heap addr with name := target } }
      let w1 := { w with configurer := cs2 }
      if w1.instances.contains target then
        ([ClientOp.create target], w1,
          .error (.lxd ("Instance " ++ target ++ " already exists")))
      else
        let w2 := { w1 with instances := w1.instances ++ [target] }
        let ops0 := [ClientOp.create target, ClientOp.get target, ClientOp.start target,
                     ClientOp.exec target ["mkdir", "-p", "/root/.init/cleantest"]] ++
          (O.srcModules.map (fun m =>
             [ClientOp.filePut target ("/root/.init/cleantest/install_" ++ m),
              ClientOp.exec target ["python3", "/root/.init/cleantest/install_" ++ m]])).flatten
        match pushResources O w2 target resources with
        | (rops, w3, .error e) => (ops0 ++ rops, w3, .error e)
        | (rops, w3, .ok _) =>
            match provisionScript with
            | Option.some ps =>
                match push O w3 [target] ps "/root/.init/provision" Option.none Option.none
                    Option.none Option.none Option.none false with
                | (pops, w4, .error e) => (ops0 ++ rops ++ pops, w4, .error e)
                | (pops, w4, .ok _) =>
                    match handleStartenvOps O target w4.env w4.hookReg.startenv with
                    | (hops, env') =>
                        (ops0 ++ rops ++ pops ++
                           [ClientOp.exec target ["python3", "/root/.init/provision"]] ++
                           hops,
                          { w4 with env := env' }, .ok target)
            | Option.none =>
                match handleStartenvOps O target w3.env w3.hookReg.startenv with
                | (hops, env') =>
                    (ops0 ++ rops ++ hops, { w3 with env := env' }, .ok target)

/-- The `executor.map(self._deploy, work_sheet)` loop of `deploy`
(archon.py lines 178-189), sequentially in work-order construction order:
each yielded name is added to the archon's `_instances` set; a failing
work order stops the iteration, keeping the names already added. -/
def deployLoop (O : Oracle) (image : String) (ps : Option String)
    (resources : List Artifact) : List String → World →
      List ClientOp × World × Except PyErr Unit
  | [], w => ([], w, .ok ())
  | t :: rest, w =>
      match deployOne O w t image ps resources with
      | (ops, w', .error e) => (ops, w', .error e)
      | (ops, w', .ok nm) =>
          match deployLoop O image ps resources rest
              { w' with archonInstances := strSetAdd w'.archonInstances nm } with
          | (ops2, w3, res) => (ops ++ ops2, w3, res)

/-- Model of `LXDArchon.deploy` (archon.py lines 158-189). -/
def deploy (O : Oracle) (w : World) (targets : List String) (image : String)
    (ps : Option String) (resources : List Artifact) :
    List ClientOp × World × Except PyErr Unit :=
  deployLoop O image ps resources targets w

end LXDArchon

/-- Is an op an `instances.create` call? -/
def isCreate : ClientOp → Bool
  | .create _ => true
  | _ => false

/-- The existence-check prologue emits only existence queries. -/
theorem checkTargets_no_create (w : World) (ts : List String) :
    ((checkTargets w ts).1).filter isCreate = [] := by
  induction ts with
  | nil => rfl
  | cons t rest ih =>
      simp only [checkTargets]
      by_cases hc : w.instances.contains t
      · simp only [hc, if_true, List.filter_cons]
        rw [show isCreate (ClientOp.existsQ t) = false from rfl]
        simpa using ih
      · simp only [hc, Bool.false_eq_true, if_false]
        rfl

/-- Every op of the existence-check prologue is an existence query. -/
theorem checkTargets_all_existsQ (w : World) (ts : List String) :
    ∀ op ∈ (checkTargets w ts).1, ∃ u, op = ClientOp.existsQ u := by
  induction ts with
  | nil => intro op hop; cases hop
  | cons t rest ih =>
      intro op hop
      simp only [checkTargets] at hop
      by_cases hc : w.instances.contains t
      · simp only [hc, if_true] at hop
        rcases List.mem_cons.mp hop with h | h
        · exact ⟨t, h⟩
        · exact ih op h
      · simp only [hc, Bool.false_eq_true, if_false] at hop
        have : op = ClientOp.existsQ t := by simpa using hop
        exact ⟨t, this⟩

/-- If no target is missing, the prologue queries every target in order. -/
theorem checkTargets_none_trace (w : World) (ts : List String)
    (h : (checkTargets w ts).2 = Option.none) :
    (checkTargets w ts).1 = ts.map ClientOp.existsQ := by
  induction ts with
  | nil => rfl
  | cons t rest ih =>
      simp only [checkTargets] at h ⊢
      by_cases hc : w.instances.contains t
      · simp only [hc, if_true] at h ⊢
        rw [List.map_cons]
        have := ih h
        rw [this]
      · simp only [hc, Bool.false_eq_true, if_false] at h
        cases h

/-- The prologue reports `none` exactly when every target exists. -/
theorem checkTargets_none_iff (w : World) (ts : List String) :
    (checkTargets w ts).2 = Option.none ↔
      ∀ t ∈ ts, w.instances.contains t = true := by
  induction ts with
  | nil => simp [checkTargets]
  | cons t rest ih =>
      simp only [checkTargets]
      by_cases hc : w.instances.contains t
      · simp only [hc, if_true]
        constructor
        · intro h u hu
          rcases List.mem_cons.mp hu with h' | h'
          · rw [h']; exact hc
          · exact (ih.mp h) u h'
        · intro h
          exact ih.mpr (fun u hu => h u (by simp [hu]))
      · simp only [hc, Bool.false_eq_true, if_false]
        constructor
        · intro h; cases h
        · intro h
          have := h t (by simp)
          rw [this] at hc
          cases hc rfl

/-- The target the prologue reports is a member of the list and missing. -/
theorem checkTargets_some_spec (w : World) (ts : List String) (t : String)
    (h : (checkTargets w ts).2 = Option.some t) :
    t ∈ ts ∧ w.instances.contains t = false := by
  induction ts with
  | nil => cases h
  | cons u rest ih =>
      simp only [checkTargets] at h
      by_cases hc : w.instances.contains u
      · simp only [hc, if_true] at h
        obtain ⟨hmem, hmiss⟩ := ih h
        exact ⟨by simp [hmem], hmiss⟩
      · simp only [hc, Bool.false_eq_true, if_false] at h
        have ht : t = u := by simpa using h.symm
        subst ht
        exact ⟨by simp, by simpa using hc⟩

/-- `_push` issues no create call. -/
theorem pushOps_filter_create (t d : String) (uid : Option Int)
    (username : Option String) (gid : Option Int) (groupname : Option String)
    (mode : Option Nat) :
    (LXDArchon.pushOps t d uid username gid groupname mode).filter isCreate = [] := by
  simp only [LXDArchon.pushOps, List.filter_append, apply_ite (List.filter isCreate)]
  simp [isCreate]

/-- `push` never mutates any state: every branch returns the input world. -/
theorem push_world_eq (O : Oracle) (w : World) (targets : List String)
    (src dest : String) (uid : Option Int) (username : Option String)
    (gid : Option Int) (groupname : Option String) (mode : Option Nat)
    (ow : Bool) :
    (LXDArchon.push O w targets src dest uid username gid groupname mode ow).2.1 = w := by
  simp only [LXDArchon.push]
  rcases hck : checkTargets w targets with ⟨tr, missing⟩
  cases missing with
  | none =>
      by_cases h1 : truthyInt uid && truthyStr username
      · simp [h1]
      · by_cases h2 : truthyInt gid && truthyStr groupname
        · simp [h1, h2]
        · by_cases h3 : O.hostIsFile src || O.hostIsDir src
          · simp [h1, h2, h3]
          · simp [h1, h2, h3]
  | some t => simp

/-- `push` issues no create call. -/
theorem push_filter_create (O : Oracle) (w : World) (targets : List String)
    (src dest : String) (uid : Option Int) (username : Option String)
    (gid : Option Int) (groupname : Option String) (mode : Option Nat)
    (ow : Bool) :
    ((LXDArchon.push O w targets src dest uid username gid groupname mode ow).1).filter
      isCreate = [] := by
  have hflat : ∀ ts : List String,
      ((ts.map (fun t => LXDArchon.pushOps t dest uid username gid groupname
        mode)).flatten).filter isCreate = [] := by
    intro ts
    induction ts with
    | nil => rfl
    | cons t rest ih =>
        simp only [List.map_cons, List.flatten_cons, List.filter_append, ih,
          pushOps_filter_create, List.append_nil]
  have htr := checkTargets_no_create w targets
  simp only [LXDArchon.push]
  rcases hck : checkTargets w targets with ⟨tr, missing⟩
  rw [hck] at htr
  simp only at htr
  cases missing with
  | none =>
      by_cases h1 : truthyInt uid && truthyStr username
      · simpa [h1] using htr
      · by_cases h2 : truthyInt gid && truthyStr groupname
        · simpa [h1, h2] using htr
        · by_cases h3 : O.hostIsFile src || O.hostIsDir src
          · simp only [h1, h2, h3, Bool.false_eq_true, if_false, if_true]
            rw [List.filter_append, htr, hflat targets]
            rfl
          · simpa [h1, h2, h3] using htr
  | some t => simpa using htr

/-- A package step issues no create call. -/
theorem pkgOps_filter_create (O : Oracle) (inst : String)
    (env : List (String × EnvVal)) (p : Pkg) :
    ((LXDArchon.pkgOps O inst env p).1).filter isCreate = [] := by
  simp only [LXDArchon.pkgOps]
  by_cases h : p.className.toLower == "charmlib" <;> simp [h, isCreate]

/-- The package loop of a hook only appends create-free ops. -/
theorem pkgFold_filter_create (O : Oracle) (inst : String) (ps : List Pkg) :
    ∀ (acc : List ClientOp) (env : List (String × EnvVal)),
      ((ps.foldl (fun acc p =>
          match LXDArchon.pkgOps O inst acc.2 p with
          | (ops, e) => (acc.1 ++ ops, e)) (acc, env)).1).filter isCreate =
        acc.filter isCreate := by
  induction ps with
  | nil => intro acc env; rfl
  | cons p rest ih =>
      intro acc env
      simp only [List.foldl_cons]
      rcases hp : LXDArchon.pkgOps O inst env p with ⟨ops, e⟩
      have hops : ops.filter isCreate = [] := by
        have := pkgOps_filter_create O inst env p
        rw [hp] at this
        exact this
      simp only [hp]
      rw [ih (acc ++ ops) e, List.filter_append, hops, List.append_nil]

/-- One hook's dispatch issues no create call. -/
theorem hookOps_filter_create (O : Oracle) (inst : String)
    (env : List (String × EnvVal)) (hk : Hook) :
    ((LXDArchon.hookOps O inst env hk).1).filter isCreate = [] := by
  have hart : ∀ arts : List Artifact,
      ((arts.map (fun _ =>
        [ClientOp.exec inst ["mkdir", "-p", "/root/init/data"],
         ClientOp.filePut inst "/root/init/data/dump",
         ClientOp.exec inst ["python3", "/root/init/data/dump"]])).flatten).filter
        isCreate = [] := by
    intro arts
    induction arts with
    | nil => rfl
    | cons a rest ih =>
        simp only [List.map_cons, List.flatten_cons, List.filter_append, ih,
          List.append_nil]
        rfl
  simp only [LXDArchon.hookOps]
  rw [List.filter_append, pkgFold_filter_create O inst hk.packages [] env,
    hart hk.push]
  rfl

/-- The start-hook handler issues no create call. -/
theorem handleStartenvOps_filter_create (O : Oracle) (inst : String)
    (env : List (String × EnvVal)) (hooks : List Hook) :
    ((LXDArchon.handleStartenvOps O inst env hooks).1).filter isCreate = [] := by
  simp only [LXDArchon.handleStartenvOps]
  have H : ∀ (l : List Hook) (acc : List ClientOp) (e : List (String × EnvVal)),
      ((l.foldl (fun acc hk =>
          match LXDArchon.hookOps O inst acc.2 hk with
          | (ops, e) => (acc.1 ++ ops, e)) (acc, e)).1).filter isCreate =
        acc.filter isCreate := by
    intro l
    induction l with
    | nil => intro acc e; rfl
    | cons hk rest ih =>
        intro acc e
        simp only [List.foldl_cons]
        rcases hp : LXDArchon.hookOps O inst e hk with ⟨ops, e'⟩
        have hops : ops.filter isCreate = [] := by
          have := hookOps_filter_create O inst e hk
          rw [hp] at this
          exact this
        simp only [hp]
        rw [ih (acc ++ ops) e', List.filter_append, hops, List.append_nil]
  exact H (dequePopOrder hooks) [] env

/-- The resource-upload loop issues no create call and leaves the world
unchanged. -/
theorem pushResources_spec (O : Oracle) (target : String) :
    ∀ (rs : List Artifact) (w : World),
      ((LXDArchon.pushResources O w target rs).1).filter isCreate = [] ∧
        (LXDArchon.pushResources O w target rs).2.1 = w := by
  intro rs
  induction rs with
  | nil => intro w; exact ⟨rfl, rfl⟩
  | cons r rest ih =>
      intro w
      simp only [LXDArchon.pushResources]
      rcases hp : LXDArchon.push O w [target] r.src r.dest Option.none
          (Option.some "root") Option.none (Option.some "root") Option.none false
        with ⟨ops, w', res⟩
      have hw' : w' = w := by
        have := push_world_eq O w [target] r.src r.dest Option.none
          (Option.some "root") Option.none (Option.some "root") Option.none false
        rw [hp] at this
        exact this
      have hops : ops.filter isCreate = [] := by
        have := push_filter_create O w [target] r.src r.dest Option.none
          (Option.some "root") Option.none (Option.some "root") Option.none false
        rw [hp] at this
        exact this
      cases res with
      | error e => exact ⟨hops, hw'⟩
      | ok u =>
          rcases hrec : LXDArchon.pushResources O w' target rest with ⟨ops2, w'', res2⟩
          have hih := ih w'
          rw [hrec] at hih
          have h1 : ops2.filter isCreate = [] := hih.1
          have h2 : w'' = w' := hih.2
          simp only [hrec]
          exact ⟨by simp [List.filter_append, hops, h1], h2.trans hw'⟩

/-- The support-code injection loop issues no create call. -/
theorem srcModules_filter_create (target : String) (ms : List String) :
    ((ms.map (fun m =>
      [ClientOp.filePut target ("/root/.init/cleantest/install_" ++ m),
       ClientOp.exec target ["python3",
         "/root/.init/cleantest/install_" ++ m]])).flatten).filter isCreate = [] := by
  induction ms with
  | nil => rfl
  | cons m rest ih =>
      simp only [List.map_cons, List.flatten_cons, List.filter_append, ih,
        List.append_nil]
      rfl

/-- C5 (amended): `_deploy` transitions no state machine — it issues
exactly one unconditional `create` call for its target whenever the image
template exists, regardless of whether the instance is already present
(there is no absent/stopped/running case analysis); when the instance
already exists, the second `create` still reaches the runtime client,
which rejects it. -/
theorem C5_amended_deploy_unconditional_create (O : Oracle) (w : World)
    (target image : String) (ps : Option String) (resources : List Artifact)
    (hfetch : ∃ x, fetch_config w.configurer image = .ok x) :
    ((LXDArchon.deployOne O w target image ps resources).1).filter isCreate =
        [ClientOp.create target] ∧
      (w.instances.contains target = true →
        (LXDArchon.deployOne O w target image ps resources).2.2 =
          .error (.lxd ("Instance " ++ target ++ " already exists"))) := by
  obtain ⟨⟨cs1, addr⟩, hx⟩ := hfetch
  have hops0 : ∀ ms : List String,
      (([ClientOp.create target, ClientOp.get target, ClientOp.start target,
          ClientOp.exec target ["mkdir", "-p", "/root/.init/cleantest"]] ++
        (ms.map (fun m =>
          [ClientOp.filePut target ("/root/.init/cleantest/install_" ++ m),
           ClientOp.exec target ["python3",
             "/root/.init/cleantest/install_" ++ m]])).flatten).filter isCreate) =
        [ClientOp.create target] := by
    intro ms
    rw [List.filter_append, srcModules_filter_create]
    simp [isCreate]
  simp only [LXDArchon.deployOne, hx]
  by_cases hc : w.instances.contains target
  · simp only [hc, if_true]
    refine ⟨rfl, fun _ => ?_⟩
    simp
  · simp only [hc, Bool.false_eq_true, if_false]
    rcases hr : LXDArchon.pushResources O
        { w with
          configurer := { cs1 with
            heap := heapSet cs1.heap addr { heapGet cs1.heap addr with name := target } },
          instances := w.instances ++ [target] } target resources with ⟨rops, w3, res⟩
    have hspec := pushResources_spec O target resources
      { w with
        configurer := { cs1 with
          heap := heapSet cs1.heap addr { heapGet cs1.heap addr with name := target } },
        instances := w.instances ++ [target] }
    rw [hr] at hspec
    have hrops : rops.filter isCreate = [] := hspec.1
    refine ⟨?_, fun hcontra => hcontra.elim⟩
    cases res with
    | error e =>
        simp only [List.filter_append]
        rw [srcModules_filter_create, hrops]
        simp [isCreate]
    | ok u =>
        cases ps with
        | none =>
            rcases hh : LXDArchon.handleStartenvOps O target w3.env w3.hookReg.startenv
              with ⟨hops, env'⟩
            have hhc : hops.filter isCreate = [] := by
              have := handleStartenvOps_filter_create O target w3.env w3.hookReg.startenv
              rw [hh] at this
              exact this
            simp only [hh, List.filter_append]
            rw [srcModules_filter_create, hrops, hhc]
            simp [isCreate]
        | some script =>
            rcases hpp : LXDArchon.push O w3 [target] script "/root/.init/provision"
                Option.none Option.none Option.none Option.none Option.none false
              with ⟨pops, w4, res4⟩
            have hpops : pops.filter isCreate = [] := by
              have := push_filter_create O w3 [target] script "/root/.init/provision"
                Option.none Option.none Option.none Option.none Option.none false
              rw [hpp] at this
              exact this
            cases res4 with
            | error e =>
                simp only [hpp, List.filter_append]
                rw [srcModules_filter_create, hrops, hpops]
                simp [isCreate]
            | ok u4 =>
                rcases hh : LXDArchon.handleStartenvOps O target w4.env
                    w4.hookReg.startenv with ⟨hops, env'⟩
                have hhc : hops.filter isCreate = [] := by
                  have := handleStartenvOps_filter_create O target w4.env
                    w4.hookReg.startenv
                  rw [hh] at this
                  exact this
                simp only [hpp, hh, List.filter_append]
                rw [srcModules_filter_create, hrops, hpops, hhc]
                simp [isCreate]

/-- Concrete oracle for evaluations: trivial collaborator responses. -/
def oracle0 : Oracle :=
  { execResult := fun _ _ => { exit_code := 0, stdout := "", stderr := "" },
    hostIsFile := fun _ => true,
    hostIsDir := fun _ => false,
    dirChildren := fun _ => [],
    jsonEnv := fun _ => [],
    pullPayload := fun _ => ("", []),
    srcModules := [],
    collab := collab0 }

/-- Concrete world: fresh runtime, seeded configurer, empty registries. -/
def world0 : World :=
  { instances := [], configurer := seededConfigurer, hookReg := {},
    archonInstances := [], env := [], hostFiles := [] }

/-- Like `world0`, but the runtime already has an instance `a`. -/
def worldA : World :=
  { instances := ["a"], configurer := seededConfigurer, hookReg := {},
    archonInstances := [], env := [], hostFiles := [] }

/-- Witness for the amended C5: even on a runtime that already has `a`,
`_deploy` issues its one unconditional create call, which the runtime
rejects. -/
theorem C5_amended_deploy_unconditional_create_witness :
    ((LXDArchon.deployOne oracle0 worldA "a" "ubuntu-jammy-amd64" Option.none
          []).1).filter isCreate = [ClientOp.create "a"] ∧
      (worldA.instances.contains "a" = true →
        (LXDArchon.deployOne oracle0 worldA "a" "ubuntu-jammy-amd64" Option.none
            []).2.2 = .error (.lxd ("Instance " ++ "a" ++ " already exists"))) :=
  C5_amended_deploy_unconditional_create oracle0 worldA "a" "ubuntu-jammy-amd64"
    Option.none [] ⟨_, rfl⟩

/-- C5 fails on the code: after `deploy(["a","b"], image)` succeeds, the
immediately following `deploy(["a"], image)` issues a *second* `create a`
call to the runtime client — `_deploy` performs no existence check, so the
instance is not left untouched and the call fails only because the
runtime rejects the duplicate name. -/
theorem C5_deploy_not_idempotent_counterexample :
    (LXDArchon.deploy oracle0 world0 ["a", "b"] "ubuntu-jammy-amd64" Option.none
        []).2.2 = .ok () ∧
      ((LXDArchon.deploy oracle0 world0 ["a", "b"] "ubuntu-jammy-amd64" Option.none
          []).1).count (ClientOp.create "a") = 1 ∧
      ((LXDArchon.deploy oracle0
          (LXDArchon.deploy oracle0 world0 ["a", "b"] "ubuntu-jammy-amd64"
            Option.none []).2.1
          ["a"] "ubuntu-jammy-amd64" Option.none []).1).count (ClientOp.create "a") =
        1 ∧
      (LXDArchon.deploy oracle0
          (LXDArchon.deploy oracle0 world0 ["a", "b"] "ubuntu-jammy-amd64"
            Option.none []).2.1
          ["a"] "ubuntu-jammy-amd64" Option.none []).2.2 =
        .error (.lxd ("Instance " ++ "a" ++ " already exists")) :=
  ⟨rfl, rfl, rfl, rfl⟩

/-- C6 fails on the code in two ways.  First, the mutual-exclusion check
runs *after* the per-target existence loop, and `exists` delegates to the
runtime client, so by the time the error is raised the client has already
been invoked: with an existing target, `push(..., uid=1, username="bob")`
raises the error but its trace already holds an existence query.  Second,
the check uses Python truthiness (`if uid and username`), so supplying
`uid=0` together with a username raises nothing at all and the transfer
proceeds. -/
theorem C6_exclusivity_counterexample :
    (LXDArchon.push oracle0 worldA ["a"] "src" "/d" (Option.some 1)
          (Option.some "bob") Option.none Option.none Option.none false).2.2 =
        .error (.lxd "Specify only uid or username, not both.") ∧
      (LXDArchon.push oracle0 worldA ["a"] "src" "/d" (Option.some 1)
          (Option.some "bob") Option.none Option.none Option.none false).1 =
        [ClientOp.existsQ "a"] ∧
      ([ClientOp.existsQ "a"] : List ClientOp) ≠ [] ∧
      (LXDArchon.push oracle0 worldA ["a"] "src" "/d" (Option.some 0)
          (Option.some "bob") Option.none Option.none Option.none false).2.2 =
        .ok () :=
  ⟨rfl, rfl, by decide, rfl⟩

/-- C6 (amended): for a `push` (or `pull`) call on existing targets that
supplies both a *truthy* uid and username, or both a truthy gid and
groupname (`None` and `0`/`""` are falsy), the mutual-exclusion error is
raised after the per-target existence queries but before any other
runtime-client call, and no state on the host or in any instance is
changed: the trace holds exactly the existence queries and the world is
returned unchanged. -/
theorem C6_amended_exclusivity_after_exists (O : Oracle) (w : World)
    (targets : List String) (target src dest : String) (uid : Option Int)
    (username : Option String) (gid : Option Int) (groupname : Option String)
    (mode : Option Nat) (ow : Bool)
    (hall : ∀ t ∈ targets, w.instances.contains t = true)
    (hone : w.instances.contains target = true)
    (hbad : (truthyInt uid && truthyStr username) = true ∨
      (truthyInt gid && truthyStr groupname) = true) :
    ((LXDArchon.push O w targets src dest uid username gid groupname mode ow).2.1 = w ∧
      (LXDArchon.push O w targets src dest uid username gid groupname mode ow).1 =
        targets.map ClientOp.existsQ ∧
      ((LXDArchon.push O w targets src dest uid username gid groupname mode ow).2.2 =
          .error (.lxd "Specify only uid or username, not both.") ∨
        (LXDArchon.push O w targets src dest uid username gid groupname mode ow).2.2 =
          .error (.lxd "Specify only gid or groupname, not both."))) ∧
    ((LXDArchon.pull O w target src dest uid username gid groupname mode ow).2.1 = w ∧
      (LXDArchon.pull O w target src dest uid username gid groupname mode ow).1 =
        [ClientOp.existsQ target] ∧
      ((LXDArchon.pull O w target src dest uid username gid groupname mode ow).2.2 =
          .error (.lxd "Specify only uid or username, not both.") ∨
        (LXDArchon.pull O w target src dest uid username gid groupname mode ow).2.2 =
          .error (.lxd "Specify only gid or groupname, not both."))) := by
  have hnone : (checkTargets w targets).2 = Option.none :=
    (checkTargets_none_iff w targets).mpr hall
  have htr : (checkTargets w targets).1 = targets.map ClientOp.existsQ :=
    checkTargets_none_trace w targets hnone
  constructor
  · simp only [LXDArchon.push]
    rcases hck : checkTargets w targets with ⟨tr, missing⟩
    rw [hck] at hnone htr
    simp only at hnone htr
    subst hnone
    by_cases h1 : truthyInt uid && truthyStr username
    · rw [if_pos h1]
      exact ⟨rfl, htr, Or.inl rfl⟩
    · have h2 : (truthyInt gid && truthyStr groupname) = true := by
        rcases hbad with hb | hb
        · rw [hb] at h1
          cases h1 rfl
        · exact hb
      rw [if_neg h1, if_pos h2]
      exact ⟨rfl, htr, Or.inr rfl⟩
  · simp only [LXDArchon.pull, hone, Bool.not_true, Bool.false_eq_true, if_false]
    by_cases h1 : truthyInt uid && truthyStr username
    · rw [if_pos h1]
      exact ⟨rfl, rfl, Or.inl rfl⟩
    · have h2 : (truthyInt gid && truthyStr groupname) = true := by
        rcases hbad with hb | hb
        · rw [hb] at h1
          cases h1 rfl
        · exact hb
      rw [if_neg h1, if_pos h2]
      exact ⟨rfl, rfl, Or.inr rfl⟩

/-- Witness for the amended C6 at an existing target and `uid=1`,
`username="bob"`. -/
theorem C6_amended_exclusivity_witness :
    ((LXDArchon.push oracle0 worldA ["a"] "src" "/d" (Option.some 1)
          (Option.some "bob") Option.none Option.none Option.none false).2.1 =
        worldA ∧
      (LXDArchon.push oracle0 worldA ["a"] "src" "/d" (Option.some 1)
          (Option.some "bob") Option.none Option.none Option.none false).1 =
        ["a"].map ClientOp.existsQ ∧
      ((LXDArchon.push oracle0 worldA ["a"] "src" "/d" (Option.some 1)
            (Option.some "bob") Option.none Option.none Option.none false).2.2 =
          .error (.lxd "Specify only uid or username, not both.") ∨
        (LXDArchon.push oracle0 worldA ["a"] "src" "/d" (Option.some 1)
            (Option.some "bob") Option.none Option.none Option.none false).2.2 =
          .error (.lxd "Specify only gid or groupname, not both."))) ∧
    ((LXDArchon.pull oracle0 worldA "a" "src" "/d" (Option.some 1)
          (Option.some "bob") Option.none Option.none Option.none false).2.1 =
        worldA ∧
      (LXDArchon.pull oracle0 worldA "a" "src" "/d" (Option.some 1)
          (Option.some "bob") Option.none Option.none Option.none false).1 =
        [ClientOp.existsQ "a"] ∧
      ((LXDArchon.pull oracle0 worldA "a" "src" "/d" (Option.some 1)
            (Option.some "bob") Option.none Option.none Option.none false).2.2 =
          .error (.lxd "Specify only uid or username, not both.") ∨
        (LXDArchon.pull oracle0 worldA "a" "src" "/d" (Option.some 1)
            (Option.some "bob") Option.none Option.none Option.none false).2.2 =
          .error (.lxd "Specify only gid or groupname, not both."))) :=
  C6_amended_exclusivity_after_exists oracle0 worldA ["a"] "a" "src" "/d"
    (Option.some 1) (Option.some "bob") Option.none Option.none Option.none false
    (by decide) (by decide) (Or.inl (by decide))

/-- C7: when some target of an `execute` call does not exist, `execute`
raises the not-found error naming the first missing target before the
command is run anywhere: the result is the error, the trace holds only
existence queries (no instance fetch and no command execution in any
target, including the ones that do exist), and no state is changed. -/
theorem C7_execute_fail_fast (O : Oracle) (w : World) (targets : List String)
    (command : String)
    (hmiss : ¬ ∀ t ∈ targets, w.instances.contains t = true) :
    ((checkTargets w targets).2.getD "") ∈ targets ∧
      w.instances.contains ((checkTargets w targets).2.getD "") = false ∧
      (LXDArchon.execute O w targets command).2.2 =
        .error (.lxd ("Target instance " ++ ((checkTargets w targets).2.getD "") ++
          " does not exist.")) ∧
      (∀ op ∈ (LXDArchon.execute O w targets command).1,
        ∃ u, op = ClientOp.existsQ u) ∧
      (LXDArchon.execute O w targets command).2.1 = w := by
  have hne : (checkTargets w targets).2 ≠ Option.none := by
    intro h
    exact hmiss ((checkTargets_none_iff w targets).mp h)
  have hall := checkTargets_all_existsQ w targets
  rcases hck : checkTargets w targets with ⟨tr, missing⟩
  rw [hck] at hall
  simp only at hall
  cases missing with
  | none => exact absurd (by rw [hck]) hne
  | some t =>
      obtain ⟨hmem, hmiss'⟩ := checkTargets_some_spec w targets t (by rw [hck])
      simp only [LXDArchon.execute, hck]
      refine ⟨hmem, hmiss', ?_, hall, ?_⟩ <;> trivial

/-- Witness for C7: one existing and one missing target. -/
theorem C7_execute_fail_fast_witness :
    ((checkTargets worldA ["a", "missing"]).2.getD "") ∈ ["a", "missing"] ∧
      worldA.instances.contains
          ((checkTargets worldA ["a", "missing"]).2.getD "") = false ∧
      (LXDArchon.execute oracle0 worldA ["a", "missing"] "true").2.2 =
        .error (.lxd ("Target instance " ++
          ((checkTargets worldA ["a", "missing"]).2.getD "") ++
          " does not exist.")) ∧
      (∀ op ∈ (LXDArchon.execute oracle0 worldA ["a", "missing"] "true").1,
        ∃ u, op = ClientOp.existsQ u) ∧
      (LXDArchon.execute oracle0 worldA ["a", "missing"] "true").2.1 = worldA :=
  C7_execute_fail_fast oracle0 worldA ["a", "missing"] "true" (by decide)

/-- A heap cell below the old length is untouched by appending a copy and
then overwriting that copy. -/
theorem heapGet_append_set (heap : List InstanceConfig) (c c' : InstanceConfig)
    (a : Nat) (h : a < heap.length) :
    heapGet (heapSet (heap ++ [c]) heap.length c') a = heapGet heap a := by
  simp only [heapGet, heapSet]
  rw [List.getD_eq_getElem?_getD, List.getD_eq_getElem?_getD,
    List.getElem?_set_ne (by omega), List.getElem?_append, if_pos h]

/-- The in-place rename `config.name = work_order.target` performed by
`_deploy` on the configurer state returned by `fetch_config`. -/
def renameCopy (cs1 : ConfigurerState) (addr : Nat) (target : String) :
    ConfigurerState :=
  { cs1 with heap := heapSet cs1.heap addr { heapGet cs1.heap addr with name := target } }

/-- `fetch_config` hands out a fresh copy, so renaming that copy in place
(`config.name = work_order.target`) leaves the store and every stored
template unchanged, and keeps all stored addresses in range. -/
theorem fetch_set_preserves (cs : ConfigurerState) (image target : String)
    (cs1 : ConfigurerState) (addr : Nat)
    (hwf : ∀ kv ∈ cs.store, kv.2 < cs.heap.length)
    (hx : fetch_config cs image = .ok (cs1, addr)) :
    (renameCopy cs1 addr target).store = cs.store ∧
      (∀ kv ∈ cs.store,
        heapGet (renameCopy cs1 addr target).heap kv.2 = heapGet cs.heap kv.2) ∧
      (∀ kv ∈ cs.store, kv.2 < (renameCopy cs1 addr target).heap.length) := by
  simp only [renameCopy]
  simp only [fetch_config] at hx
  rcases hf : (cs.store.map Prod.snd).find?
      (fun a => (heapGet cs.heap a).name == image) with _ | a
  · rw [hf] at hx
    cases hx
  · rw [hf] at hx
    simp only [Except.ok.injEq, Prod.mk.injEq] at hx
    obtain ⟨h1, h2⟩ := hx
    subst h2
    subst h1
    refine ⟨rfl, ?_, ?_⟩
    · intro kv hkv
      exact heapGet_append_set cs.heap _ _ kv.2 (hwf kv hkv)
    · intro kv hkv
      have := hwf kv hkv
      simp only [heapSet, List.length_set, List.length_append, List.length_singleton]
      omega

/-- `_deploy` leaves the configurer registry intact: the store and all
stored templates are unchanged whatever the outcome. -/
theorem deployOne_preserves_templates (O : Oracle) (w : World)
    (target image : String) (ps : Option String) (resources : List Artifact)
    (hwf : ∀ kv ∈ w.configurer.store, kv.2 < w.configurer.heap.length) :
    ((LXDArchon.deployOne O w target image ps resources).2.1).configurer.store =
        w.configurer.store ∧
      (∀ kv ∈ w.configurer.store,
        heapGet
          ((LXDArchon.deployOne O w target image ps resources).2.1).configurer.heap
          kv.2 = heapGet w.configurer.heap kv.2) ∧
      (∀ kv ∈ w.configurer.store,
        kv.2 <
          ((LXDArchon.deployOne O w target image ps
            resources).2.1).configurer.heap.length) := by
  rcases hx : fetch_config w.configurer image with e | ⟨cs1, addr⟩
  · simp only [LXDArchon.deployOne, hx]
    exact ⟨by trivial, fun kv _ => by trivial, hwf⟩
  · obtain ⟨hstore, hcells, hwf'⟩ :=
      fetch_set_preserves w.configurer image target cs1 addr hwf hx
    simp only [LXDArchon.deployOne, hx]
    by_cases hc : w.instances.contains target
    · rw [if_pos hc]
      exact ⟨hstore, hcells, hwf'⟩
    · rw [if_neg hc]
      rcases hr : LXDArchon.pushResources O
          { w with
            configurer := { cs1 with
              heap := heapSet cs1.heap addr
                { heapGet cs1.heap addr with name := target } },
            instances := w.instances ++ [target] } target resources with ⟨rops, w3, res⟩
      have hw3 : w3 =
          { w with
            configurer := { cs1 with
              heap := heapSet cs1.heap addr
                { heapGet cs1.heap addr with name := target } },
            instances := w.instances ++ [target] } := by
        have := pushResources_spec O target resources
          { w with
            configurer := { cs1 with
              heap := heapSet cs1.heap addr
                { heapGet cs1.heap addr with name := target } },
            instances := w.instances ++ [target] }
        rw [hr] at this
        exact this.2
      cases res with
      | error e =>
          simp only
          rw [hw3]
          exact ⟨hstore, hcells, hwf'⟩
      | ok u =>
          cases ps with
          | none =>
              rcases hh : LXDArchon.handleStartenvOps O target w3.env
                  w3.hookReg.startenv with ⟨hops, env'⟩
              simp only [hh]
              rw [hw3]
              exact ⟨hstore, hcells, hwf'⟩
          | some script =>
              rcases hpp : LXDArchon.push O w3 [target] script "/root/.init/provision"
                  Option.none Option.none Option.none Option.none Option.none false
                with ⟨pops, w4, res4⟩
              have hw4 : w4 = w3 := by
                have := push_world_eq O w3 [target] script "/root/.init/provision"
                  Option.none Option.none Option.none Option.none Option.none false
                rw [hpp] at this
                exact this
              cases res4 with
              | error e =>
                  simp only [hpp]
                  rw [hw4, hw3]
                  exact ⟨hstore, hcells, hwf'⟩
              | ok u4 =>
                  rcases hh : LXDArchon.handleStartenvOps O target w4.env
                      w4.hookReg.startenv with ⟨hops, env'⟩
                  simp only [hpp, hh]
                  rw [hw4, hw3]
                  exact ⟨hstore, hcells, hwf'⟩

/-- The deploy loop preserves the store and every stored template. -/
theorem deployLoop_preserves_templates (O : Oracle) (image : String)
    (ps : Option String) (resources : List Artifact) :
    ∀ (targets : List String) (w : World),
      (∀ kv ∈ w.configurer.store, kv.2 < w.configurer.heap.length) →
      ((LXDArchon.deployLoop O image ps resources targets w).2.1).configurer.store =
          w.configurer.store ∧
        (∀ kv ∈ w.configurer.store,
          heapGet
            ((LXDArchon.deployLoop O image ps resources targets w).2.1).configurer.heap
            kv.2 = heapGet w.configurer.heap kv.2) ∧
        (∀ kv ∈ w.configurer.store,
          kv.2 <
            ((LXDArchon.deployLoop O image ps resources targets
              w).2.1).configurer.heap.length) := by
  intro targets
  induction targets with
  | nil =>
      intro w hwf
      exact ⟨rfl, fun kv _ => rfl, hwf⟩
  | cons t rest ih =>
      intro w hwf
      simp only [LXDArchon.deployLoop]
      rcases hd : LXDArchon.deployOne O w t image ps resources with ⟨ops, w', res⟩
      have hone := deployOne_preserves_templates O w t image ps resources hwf
      rw [hd] at hone
      have hs1 : w'.configurer.store = w.configurer.store := hone.1
      have hc1 : ∀ kv ∈ w.configurer.store,
          heapGet w'.configurer.heap kv.2 = heapGet w.configurer.heap kv.2 :=
        hone.2.1
      have hwf1 : ∀ kv ∈ w.configurer.store, kv.2 < w'.configurer.heap.length :=
        hone.2.2
      cases res with
      | error e => exact ⟨hs1, hc1, hwf1⟩
      | ok nm =>
          rcases hloop : LXDArchon.deployLoop O image ps resources rest
              { w' with archonInstances := strSetAdd w'.archonInstances nm }
            with ⟨ops2, w3, res2⟩
          have hih := ih { w' with archonInstances := strSetAdd w'.archonInstances nm }
            (by
              intro kv hkv
              exact hwf1 kv (by rw [← hs1]; exact hkv))
          rw [hloop] at hih
          have hs2 : w3.configurer.store = w.configurer.store := by
            rw [hih.1]
            exact hs1
          have hc2 : ∀ kv ∈ w.configurer.store,
              heapGet w3.configurer.heap kv.2 = heapGet w.configurer.heap kv.2 := by
            intro kv hkv
            rw [hih.2.1 kv (by rw [hs1]; exact hkv)]
            exact hc1 kv hkv
          have hwf2 : ∀ kv ∈ w.configurer.store,
              kv.2 < w3.configurer.heap.length := by
            intro kv hkv
            exact hih.2.2 kv (by rw [hs1]; exact hkv)
          simp only [hloop]
          exact ⟨hs2, hc2, hwf2⟩

/-- C10: `deploy` never mutates the configuration store's stored
templates.  `fetch_config` returns a deep copy of the stored
`InstanceConfig`, and `_deploy` assigns the target instance name only to
that copy, so after any `deploy(target, image)` the store mapping is
unchanged and every `InstanceConfig` reachable through it — in particular
its `name` field — is exactly what it was before. -/
theorem C10_deploy_preserves_templates (O : Oracle) (w : World)
    (targets : List String) (image : String) (ps : Option String)
    (resources : List Artifact)
    (hwf : ∀ kv ∈ w.configurer.store, kv.2 < w.configurer.heap.length) :
    ((LXDArchon.deploy O w targets image ps resources).2.1).configurer.store =
        w.configurer.store ∧
      ∀ kv ∈ w.configurer.store,
        heapGet
            ((LXDArchon.deploy O w targets image ps resources).2.1).configurer.heap
            kv.2 = heapGet w.configurer.heap kv.2 ∧
          (heapGet
              ((LXDArchon.deploy O w targets image ps resources).2.1).configurer.heap
              kv.2).name = (heapGet w.configurer.heap kv.2).name := by
  obtain ⟨hs, hc, _⟩ := deployLoop_preserves_templates O image ps resources targets w hwf
  simp only [LXDArchon.deploy]
  exact ⟨hs, fun kv hkv => ⟨hc kv hkv, by rw [hc kv hkv]⟩⟩

/-- Witness for C10: deploying `a` from the seeded registry leaves both
stored templates (and their names) untouched. -/
theorem C10_deploy_preserves_templates_witness :
    ((LXDArchon.deploy oracle0 world0 ["a"] "ubuntu-jammy-amd64" Option.none
          []).2.1).configurer.store = world0.configurer.store ∧
      ∀ kv ∈ world0.configurer.store,
        heapGet
            ((LXDArchon.deploy oracle0 world0 ["a"] "ubuntu-jammy-amd64" Option.none
              []).2.1).configurer.heap kv.2 = heapGet world0.configurer.heap kv.2 ∧
          (heapGet
              ((LXDArchon.deploy oracle0 world0 ["a"] "ubuntu-jammy-amd64"
                Option.none []).2.1).configurer.heap kv.2).name =
            (heapGet world0.configurer.heap kv.2).name :=
  C10_deploy_preserves_templates oracle0 world0 ["a"] "ubuntu-jammy-amd64"
    Option.none [] (by decide)

end Cleantest
